import Mathlib

/-!
Verification of the panama-expat-data synchronisation scripts
(`push_csv.py`, `print_override_table.py`) against their specification.

The Python code is shallowly embedded: pure helpers become Lean functions,
the remote tabular store is modelled by explicit state / response oracles,
and the row-synchronisation loop becomes a fold over an explicit state
carrying the per-run caches, the summary counters and a trace of the
remote requests that were issued.
-/

namespace PanamaSync

/-! ### Python string primitives -/

/-- ASCII whitespace as stripped by Python `str.strip()` (restricted to the
ASCII range, which is all the CSV data contains). -/
def isPySpace (c : Char) : Bool :=
  c = ' ' || c = '\t' || c = '\n' || c = '\r' || c = '\x0b' || c = '\x0c'

/-- Strip leading and trailing whitespace from a character list. -/
def stripL (cs : List Char) : List Char :=
  ((cs.dropWhile isPySpace).reverse.dropWhile isPySpace).reverse

/-- Python `str.strip()`. -/
def pyStrip (s : String) : String :=
  String.mk (stripL s.toList)

/-- Value of a decimal digit character, if it is one. -/
def digit? (c : Char) : Option Nat :=
  if c.isDigit then some (c.toNat - 48) else none

/-! ### `fmt_date` (push_csv.py lines 111-116)

`fmt_date` tries `datetime.strptime` with the formats `%m/%d/%Y`,
`%Y-%m-%d`, `%m/%d/%y` in that order and re-emits the first successful
parse as `%Y-%m-%d`; if none matches (or the input is empty, hence falsy)
the input is returned unchanged.

Python's `strptime` compiles each directive to a regex:
`%m ↦ 1[0-2]|0[1-9]|[1-9]`, `%d ↦ 3[01]|[12]\d|0[1-9]|[1-9]`,
`%Y ↦ \d\d\d\d`, `%y ↦ \d\d`, the whole string must be consumed, and the
resulting numbers must form a constructible `datetime.date`
(year ≥ 1, day within the month).  We embed exactly that. -/

/-- A parsed calendar date: month, day, year. -/
structure PDate where
  month : Nat
  day : Nat
  year : Nat
deriving DecidableEq, Repr

/-- Candidate matches for the `%m` directive, in the priority order of the
regex alternation `1[0-2]|0[1-9]|[1-9]` (two-digit match first). -/
def monthCands (cs : List Char) : List (Nat × List Char) :=
  (match cs with
   | a :: b :: rest =>
     match digit? a, digit? b with
     | some x, some y =>
       let v := 10 * x + y
       if (10 ≤ v ∧ v ≤ 12) ∨ (x = 0 ∧ 1 ≤ y) then [(v, rest)] else []
     | _, _ => []
   | _ => []) ++
  (match cs with
   | a :: rest =>
     match digit? a with
     | some x => if 1 ≤ x ∧ x ≤ 9 then [(x, rest)] else []
     | none => []
   | [] => [])

/-- Candidate matches for the `%d` directive, regex
`3[01]|[12]\d|0[1-9]|[1-9]` (the two-digit alternatives cover exactly
01–31). -/
def dayCands (cs : List Char) : List (Nat × List Char) :=
  (match cs with
   | a :: b :: rest =>
     match digit? a, digit? b with
     | some x, some y =>
       let v := 10 * x + y
       if 1 ≤ v ∧ v ≤ 31 ∧ x ≤ 3 then [(v, rest)] else []
     | _, _ => []
   | _ => []) ++
  (match cs with
   | a :: rest =>
     match digit? a with
     | some x => if 1 ≤ x ∧ x ≤ 9 then [(x, rest)] else []
     | none => []
   | [] => [])

/-- The `%Y` directive: exactly four digits. -/
def year4 (cs : List Char) : Option (Nat × List Char) :=
  match cs with
  | a :: b :: c :: d :: rest =>
    match digit? a, digit? b, digit? c, digit? d with
    | some x, some y, some z, some w => some (1000 * x + 100 * y + 10 * z + w, rest)
    | _, _, _, _ => none
  | _ => none

/-- The `%y` directive: exactly two digits, pivoting at 69 as Python does
(00–68 ↦ 2000–2068, 69–99 ↦ 1969–1999). -/
def year2 (cs : List Char) : Option (Nat × List Char) :=
  match cs with
  | a :: b :: rest =>
    match digit? a, digit? b with
    | some x, some y =>
      let v := 10 * x + y
      some (if v ≤ 68 then 2000 + v else 1900 + v, rest)
    | _, _ => none
  | _ => none

/-- Regex phase of `strptime(val, "%m/%d/%Y")`: directives joined by literal
slashes, full-string match, with the regex's backtracking order. -/
def reMDY (cs : List Char) : Option PDate :=
  (monthCands cs).findSome? fun mc =>
    match mc.2 with
    | '/' :: r2 =>
      (dayCands r2).findSome? fun dc =>
        match dc.2 with
        | '/' :: r4 =>
          match year4 r4 with
          | some (y, []) => some ⟨mc.1, dc.1, y⟩
          | _ => none
        | _ => none
    | _ => none

/-- Regex phase of `strptime(val, "%Y-%m-%d")`. -/
def reYMD (cs : List Char) : Option PDate :=
  match year4 cs with
  | some (y, '-' :: r2) =>
    (monthCands r2).findSome? fun mc =>
      match mc.2 with
      | '-' :: r4 =>
        (dayCands r4).findSome? fun dc =>
          if dc.2 = [] then some ⟨mc.1, dc.1, y⟩ else none
      | _ => none
  | _ => none

/-- Regex phase of `strptime(val, "%m/%d/%y")`. -/
def reMDy (cs : List Char) : Option PDate :=
  (monthCands cs).findSome? fun mc =>
    match mc.2 with
    | '/' :: r2 =>
      (dayCands r2).findSome? fun dc =>
        match dc.2 with
        | '/' :: r4 =>
          match year2 r4 with
          | some (y, []) => some ⟨mc.1, dc.1, y⟩
          | _ => none
        | _ => none
    | _ => none

/-- Leap-year test of the Gregorian calendar, as `datetime` uses. -/
def isLeap (y : Nat) : Bool :=
  y % 4 = 0 && (y % 100 ≠ 0 || y % 400 = 0)

/-- Days in a month, as validated by the `datetime` constructor. -/
def daysInMonth (y m : Nat) : Nat :=
  if m = 2 then (if isLeap y then 29 else 28)
  else if m = 4 ∨ m = 6 ∨ m = 9 ∨ m = 11 then 30
  else 31

/-- The `datetime` constructor's validity check (`MINYEAR = 1`,
`MAXYEAR = 9999`, day within the month). -/
def dateOK (d : PDate) : Bool :=
  1 ≤ d.year && d.year ≤ 9999 && 1 ≤ d.month && d.month ≤ 12 &&
    1 ≤ d.day && d.day ≤ daysInMonth d.year d.month

/-- Model of `strptime` for one format: regex match of the whole string followed by
the `datetime` constructor's validation. -/
def strptime1 (re : List Char → Option PDate) (s : String) : Option PDate :=
  match re s.toList with
  | some d => if dateOK d then some d else none
  | none => none

/-- Left-pad a decimal numeral with zeros to the given width. -/
def padNum (width n : Nat) : String :=
  let s := toString n
  String.mk (List.replicate (width - s.length) '0') ++ s

/-- Embedding of `strftime("%Y-%m-%d")` on a parsed date. -/
def isoStr (d : PDate) : String :=
  padNum 4 d.year ++ "-" ++ padNum 2 d.month ++ "-" ++ padNum 2 d.day

/-- Embedding of `fmt_date` (push_csv.py lines 111-116): empty (falsy) input is returned
as-is; otherwise the three accepted formats are tried in order, the first
success is re-emitted as ISO `%Y-%m-%d`, and if all fail the input is
returned unchanged. -/
def fmt_date (val : String) : String :=
  if val = "" then val
  else
    match strptime1 reMDY val with
    | some d => isoStr d
    | none =>
      match strptime1 reYMD val with
      | some d => isoStr d
      | none =>
        match strptime1 reMDy val with
        | some d => isoStr d
        | none => val

/-! ### `to_float` (push_csv.py lines 118-120)

`to_float(v)` evaluates `float(str(v).replace(",", ""))` and returns the
original value on any exception.  We embed Python's `float(str)` grammar:
optional surrounding whitespace, underscores only between digits, optional
sign, then `inf`/`infinity`/`nan` (case-insensitive) or a decimal numeral
with optional fraction and exponent.  The numeric value is kept as
(sign, mantissa digits, decimal exponent); binary-float rounding is beyond
what any claim needs. -/

/-- Result of a successful Python `float` parse. -/
inductive PF where
  | num (neg : Bool) (mant : Nat) (exp : Int)
  | inf (neg : Bool)
  | nan (neg : Bool)
deriving DecidableEq, Repr

/-- Check Python's numeric-literal underscore rule: every `_` must be
directly preceded and followed by a digit. -/
def undersAux (prev : Char) : List Char → Bool
  | [] => true
  | c :: cs =>
    if c = '_' then
      match cs with
      | d :: _ => prev.isDigit && d.isDigit && undersAux c cs
      | [] => false
    else undersAux c cs

/-- Underscore validity for a whole string (a leading `_` has no digit
before it). -/
def undersOK : List Char → Bool
  | [] => true
  | c :: cs => if c = '_' then false else undersAux c cs

/-- Longest prefix of decimal digits, returned as digit values. -/
def takeDigits : List Char → List Nat × List Char
  | [] => ([], [])
  | c :: cs =>
    match digit? c with
    | some x =>
      let (ds, rest) := takeDigits cs
      (x :: ds, rest)
    | none => ([], c :: cs)

/-- Decimal value of a digit list (most significant first). -/
def digitsVal (ds : List Nat) : Nat :=
  ds.foldl (fun acc d => 10 * acc + d) 0

/-- Case-insensitive comparison of a character list with a lowercase word. -/
def lowerEq (cs : List Char) (w : String) : Bool :=
  cs.map Char.toLower = w.toList

/-- The decimal part of the `float` grammar:
`digits [. digits] [e [sign] digits]` with at least one digit in the
integer-or-fraction part, consuming the whole remaining input. -/
def parseDec (neg : Bool) (cs : List Char) : Option PF :=
  let (ip, r1) := takeDigits cs
  let (fp, r2) :=
    match r1 with
    | '.' :: r => let (f, rr) := takeDigits r; (some f, rr)
    | r => (none, r)
  let frac := fp.getD []
  if ip = [] ∧ frac = [] then none
  else
    let mant := digitsVal (ip ++ frac)
    let fexp : Int := -(frac.length : Int)
    match r2 with
    | [] => some (.num neg mant fexp)
    | e :: r3 =>
      if e = 'e' ∨ e = 'E' then
        let (eneg, r4) :=
          match r3 with
          | '-' :: r => (true, r)
          | '+' :: r => (false, r)
          | r => (false, r)
        let (ed, r5) := takeDigits r4
        if ed = [] ∨ r5 ≠ [] then none
        else
          let ev : Int := if eneg then -(digitsVal ed : Int) else (digitsVal ed : Int)
          some (.num neg mant (fexp + ev))
      else none

/-- Model of Python `float(s)` for a string: underscore pre-check, whitespace strip,
optional sign, then the special words or a decimal numeral. -/
def pyFloatOfString (s : String) : Option PF :=
  let raw := s.toList
  if ¬ undersOK raw then none
  else
    let cs := stripL (raw.filter (fun c => c ≠ '_'))
    let (neg, cs1) :=
      match cs with
      | '-' :: r => (true, r)
      | '+' :: r => (false, r)
      | r => (false, r)
    if lowerEq cs1 "inf" ∨ lowerEq cs1 "infinity" then some (.inf neg)
    else if lowerEq cs1 "nan" then some (.nan neg)
    else parseDec neg cs1

/-- A Python value flowing out of `to_float`: the CSV gives `None` or a
string, and a successful parse yields a float. -/
inductive PyVal where
  | vNone
  | vStr (s : String)
  | vNum (f : PF)
deriving DecidableEq, Repr

/-- Python `str(v)` on the possible CSV cell values. -/
def pyStr : Option String → String
  | none => "None"
  | some s => s

/-- Python `s.replace(",", "")`: remove every comma. -/
def stripCommas (s : String) : String :=
  String.mk (s.toList.filter (fun c => c ≠ ','))

/-- Embedding of `to_float` (push_csv.py lines 118-120): strip all commas from `str(v)`,
try `float`, return the parsed number on success and the original value
unchanged on failure. -/
def to_float (v : Option String) : PyVal :=
  match pyFloatOfString (stripCommas (pyStr v)) with
  | some f => .vNum f
  | none =>
    match v with
    | none => .vNone
    | some s => .vStr s

/-! ### `fetch_all` (print_override_table.py lines 19-37)

The remote store is modelled by the chain of page responses it would
serve: the first request returns the head of the list, and a response
carries a continuation `offset` exactly when further pages follow
(`Absence of offset signals end of pagination`).  Each response carries
its HTTP status and body; `requests.Response.raise_for_status()` raises
exactly for 4xx and 5xx statuses. -/

/-- One page response from the store's list endpoint. -/
structure PageR (α : Type) where
  status : Nat
  body : String
  recs : List α
deriving DecidableEq, Repr

/-- Model of `Response.raise_for_status()`: an error carrying status and body for
4xx/5xx responses, a no-op otherwise. -/
def raise_for_status {α : Type} (p : PageR α) : Except (Nat × String) Unit :=
  if 400 ≤ p.status ∧ p.status < 600 then .error (p.status, p.body) else .ok ()

/-- The inner `for rec in records: out.append(rec); if len(out) >= limit:
break` loop. -/
def appendUpTo {α : Type} (limit : Nat) : List α → List α → List α
  | out, [] => out
  | out, r :: rs =>
    let out2 := out ++ [r]
    if limit ≤ out2.length then out2 else appendUpTo limit out2 rs

/-- The `while True and len(out) < limit` pagination loop of `fetch_all`:
check the cap, fetch the next page, raise on 4xx/5xx, append records up
to the cap, and continue while an offset remains and the cap is not
reached. -/
def fetchGo {α : Type} (limit : Nat) : List (PageR α) → List α → Except (Nat × String) (List α)
  | [], out => .ok out
  | p :: rest, out =>
    if out.length < limit then
      match raise_for_status p with
      | .error e => .error e
      | .ok _ =>
        let out2 := appendUpTo limit out p.recs
        if rest.isEmpty ∨ limit ≤ out2.length then .ok out2 else fetchGo limit rest out2
    else .ok out

/-- Embedding of `fetch_all` (print_override_table.py lines 19-37), over the store's
page chain. -/
def fetch_all {α : Type} (limit : Nat) (pages : List (PageR α)) : Except (Nat × String) (List α) :=
  fetchGo limit pages []

/-! ### Status handling of the lookup path (push_csv.py lines 122-131) -/

/-- A list-endpoint response as consumed by `find_record_id_by_name` and
the Rents search: status, body, and the id of the first record of the
JSON payload (`none` when `records` is empty). -/
structure ListResp where
  status : Nat
  body : String
  firstId : Option String
deriving DecidableEq, Repr

/-- The status check of `find_record_id_by_name` (push_csv.py lines
128-131): any status ≥ 300 raises `RuntimeError` with a message carrying
the status and the response body; otherwise the first matching record id
(or `none`) is returned. -/
def findIdResp (table : String) (r : ListResp) : Except String (Option String) :=
  if 300 ≤ r.status then
    .error ("Lookup error [" ++ table ++ "]: " ++ toString r.status ++ " " ++ r.body)
  else .ok r.firstId

/-! ### Linked-table state model (push_csv.py lines 122-148)

For the get-or-create contract we model one linked table as the ordered
list of its records (opaque id plus field mapping) together with a fresh-id
counter.  `filterByFormula` with `{primary}='name'` and `maxRecords: 1`
returns the first record whose primary-field text equals the name (a
missing field reads as the empty string); the quote-doubling in the code
is the transport encoding of that exact-match formula. -/

/-- Association-list lookup keeping the first binding, like a Python dict
read. -/
def lookupKey {α : Type} : List (String × α) → String → Option α
  | [], _ => none
  | p :: ps, k => if p.1 = k then some p.2 else lookupKey ps k

/-- Key-membership test of an association list, like Python `in` on a
dict. -/
def hasKey {α : Type} : List (String × α) → String → Bool
  | [], _ => false
  | p :: ps, k => p.1 = k || hasKey ps k

/-- Python `dict.__setitem__`: replace in place if the key exists, append
otherwise. -/
def setKey {α : Type} (fs : List (String × α)) (k : String) (v : α) : List (String × α) :=
  if hasKey fs k then
    fs.map (fun p => if p.1 = k then (k, v) else p)
  else fs ++ [(k, v)]

/-- Python `dict.update`, folding `setKey` over the updates in order. -/
def dictUpdate {α : Type} (fs extra : List (String × α)) : List (String × α) :=
  extra.foldl (fun acc kv => setKey acc kv.1 kv.2) fs

/-- A record of a linked table: opaque identifier and field mapping. -/
structure LRec where
  rid : String
  fields : List (String × String)
deriving DecidableEq, Repr

/-- A linked table: records in store order plus a fresh-id counter. -/
structure LTable where
  recs : List LRec
  nextId : Nat
deriving DecidableEq, Repr

/-- The text an Airtable formula sees for a field (missing reads as ""). -/
def fieldText (fs : List (String × String)) (k : String) : String :=
  (lookupKey fs k).getD ""

/-- Embedding of `find_record_id_by_name` (push_csv.py lines 122-131) at the store
level: first record whose primary-field text equals `name`, if any. -/
def find_record_id_by_name (t : LTable) (pf name : String) : Option String :=
  (t.recs.find? (fun r => fieldText r.fields pf = name)).map LRec.rid

/-- Embedding of `create_record_by_name` (push_csv.py lines 133-142): build the field
dict `{primary_field: name}` updated with the extra fields, append the new
record, and return its fresh identifier. -/
def create_record_by_name (t : LTable) (pf name : String)
    (extra : List (String × String)) : String × LTable :=
  let fields := dictUpdate [(pf, name)] extra
  let rid := "rec" ++ toString t.nextId
  (rid, ⟨t.recs ++ [⟨rid, fields⟩], t.nextId + 1⟩)

/-- Embedding of `get_or_create_linked` (push_csv.py lines 144-148): look up first and
return the found id when it is truthy, else create. -/
def get_or_create_linked (t : LTable) (pf name : String)
    (extra : List (String × String)) : String × LTable :=
  match find_record_id_by_name t pf name with
  | some rid => if rid ≠ "" then (rid, t) else create_record_by_name t pf name extra
  | none => create_record_by_name t pf name extra

/-! ### The row-synchronisation loop (push_csv.py lines 153-284)

`airtable_sync_linked` iterates the CSV rows, resolving the linked city
and configuration records through per-run caches, searching for an
existing Rents record by (city text, config text, date) and then writing
with a full payload, retrying once with the mandatory fields only.

The remote is modelled by an oracle `ω : Nat → Resp` giving the response
to the n-th HTTP call of the run, and the run is a fold over a state
carrying both caches, the counters `updated`/`created`/`failures`, the
call counter, and a trace of the requests issued. -/

/-- Response to one remote call of the sync loop: HTTP status, the id of
the first returned record for list calls (`none` when `records` is
empty), and the id assigned by a create call. -/
structure Resp where
  status : Nat
  firstId : Option String
  newId : String
deriving DecidableEq, Repr

/-- A field value of a Rents write payload. -/
inductive FVal where
  | link (ids : List String)
  | fstr (s : String)
  | fnum (v : PyVal)
  | fbool (b : Bool)
deriving DecidableEq, Repr

/-- A `fields` object of one record in a write request. -/
abbrev Payload := List (String × FVal)

/-- The full `fields_payload` (push_csv.py lines 240-248): the four
mandatory fields plus the optional defaults `currency = "USD"` and
`active = True`. -/
def fullPayload (cid gid ed : String) (pv : PyVal) : Payload :=
  [("city", .link [cid]), ("config_label", .link [gid]),
   ("effective_date", .fstr ed), ("average_price_usd", .fnum pv),
   ("currency", .fstr "USD"), ("active", .fbool true)]

/-- The `minimal` fallback payload (push_csv.py lines 257 and 271):
mandatory fields only. -/
def minimalPayload (cid gid ed : String) (pv : PyVal) : Payload :=
  [("city", .link [cid]), ("config_label", .link [gid]),
   ("effective_date", .fstr ed), ("average_price_usd", .fnum pv)]

/-- PATCH semantics of the store: the payload's fields overwrite the
record's fields, all others are retained. -/
def patchFields (payload : Payload) (fs : List (String × FVal)) : List (String × FVal) :=
  payload.foldl (fun acc kv => setKey acc kv.1 kv.2) fs

/-- The kind of a single-record write request issued by the loop. -/
inductive WKind where
  | updateFull (rid : String)
  | updateMin (rid : String)
  | createFull
  | createMin
deriving DecidableEq, Repr

/-- A remote request issued by the sync loop, as recorded in the trace.
A write request carries the list of records of its body (always a
singleton for this loop, which uses the single-record endpoints). -/
inductive Ev where
  | findIn (table name : String)
  | createIn (table name : String)
  | searchRent (city cfg date : String)
  | write (k : WKind) (records : List Payload)
deriving DecidableEq, Repr

/-- Result of resolving one linked name: the id (`none` means the lookup
or create raised), the updated cache, the next call number, and the
requests issued. -/
structure RRes where
  rid : Option String
  cache : List (String × String)
  k : Nat
  evs : List Ev
deriving Repr

/-- The create half of `get_or_create_linked` as invoked by the loop. -/
def resolveCreate (ω : Nat → Resp) (table name : String)
    (cache : List (String × String)) (k : Nat) : RRes :=
  let r := ω k
  if 300 ≤ r.status then ⟨none, cache, k + 1, [.createIn table name]⟩
  else ⟨some r.newId, cache ++ [(name, r.newId)], k + 1, [.createIn table name]⟩

/-- One cached resolution (push_csv.py lines 204-210): serve from the
cache when present, else `get_or_create_linked` — a lookup call, then a
create call when no truthy id was found; a successful result is stored in
the cache. -/
def resolveName (ω : Nat → Resp) (table name : String)
    (cache : List (String × String)) (k : Nat) : RRes :=
  match lookupKey cache name with
  | some rid => ⟨some rid, cache, k, []⟩
  | none =>
    let r := ω k
    if 300 ≤ r.status then ⟨none, cache, k + 1, [.findIn table name]⟩
    else
      match r.firstId with
      | some rid =>
        if rid = "" then
          let rc := resolveCreate ω table name cache (k + 1)
          ⟨rc.rid, rc.cache, rc.k, .findIn table name :: rc.evs⟩
        else ⟨some rid, cache ++ [(name, rid)], k + 1, [.findIn table name]⟩
      | none =>
        let rc := resolveCreate ω table name cache (k + 1)
        ⟨rc.rid, rc.cache, rc.k, .findIn table name :: rc.evs⟩

/-- One CSV row as produced by `csv.DictReader` (a missing column reads
as `None`). -/
structure Row where
  city : Option String
  config : Option String
  date : Option String
  price : Option String
deriving DecidableEq, Repr

/-- Stripped city name of a row: `(r.get("City/Neighborhood") or "").strip()`. -/
def rowCity (row : Row) : String := pyStrip (row.city.getD "")

/-- Stripped configuration label of a row:
`(r.get("Configuration") or "").strip()`. -/
def rowCfg (row : Row) : String := pyStrip (row.config.getD "")

/-- Formatted date of a row: `fmt_date(r.get("Date") or "")`. -/
def rowDate (row : Row) : String := fmt_date (row.date.getD "")

/-- Coerced price of a row: `to_float(r.get("Average Price (USD)"))`. -/
def rowPrice (row : Row) : PyVal := to_float row.price

/-- Which summary counter one row's processing bumps. -/
inductive Tally where
  | skip
  | fail
  | upd
  | cre
deriving DecidableEq, Repr

/-- Outcome of processing one row: the updated caches, next call number,
the requests issued, and the counter bumped. -/
structure RowOut where
  cityCache : List (String × String)
  cfgCache : List (String × String)
  k : Nat
  evs : List Ev
  tally : Tally
deriving Repr

/-- The loop body of `airtable_sync_linked` (push_csv.py lines 193-282)
for one row: extract and coerce the four columns, skip when a required
one is missing, resolve the linked city and configuration (a failure
counts as `fail` and moves on), search for an existing Rents record by
(city text, config text, date), then update or create — full payload
first, one minimal retry on rejection, `fail` if both are rejected. -/
def rowStep (ω : Nat → Resp) (cT gT : String)
    (cc gc : List (String × String)) (k : Nat) (row : Row) : RowOut :=
  let cn := rowCity row
  let cl := rowCfg row
  let ed := rowDate row
  let pv := rowPrice row
  if cn = "" ∨ cl = "" ∨ ed = "" then ⟨cc, gc, k, [], .skip⟩
  else
    let rc := resolveName ω cT cn cc k
    match rc.rid with
    | none => ⟨rc.cache, gc, rc.k, rc.evs, .fail⟩
    | some cid =>
      let rg := resolveName ω gT cl gc rc.k
      match rg.rid with
      | none => ⟨rc.cache, rg.cache, rg.k, rc.evs ++ rg.evs, .fail⟩
      | some gid =>
        let rs := ω rg.k
        let evS := Ev.searchRent cn cl ed
        if 300 ≤ rs.status then
          ⟨rc.cache, rg.cache, rg.k + 1, rc.evs ++ rg.evs ++ [evS], .fail⟩
        else
          match rs.firstId with
          | some rid =>
            let w1 := ω (rg.k + 1)
            let evF := Ev.write (.updateFull rid) [fullPayload cid gid ed pv]
            if 300 ≤ w1.status then
              let w2 := ω (rg.k + 2)
              let evM := Ev.write (.updateMin rid) [minimalPayload cid gid ed pv]
              if 300 ≤ w2.status then
                ⟨rc.cache, rg.cache, rg.k + 3, rc.evs ++ rg.evs ++ [evS, evF, evM], .fail⟩
              else
                ⟨rc.cache, rg.cache, rg.k + 3, rc.evs ++ rg.evs ++ [evS, evF, evM], .upd⟩
            else
              ⟨rc.cache, rg.cache, rg.k + 2, rc.evs ++ rg.evs ++ [evS, evF], .upd⟩
          | none =>
            let w1 := ω (rg.k + 1)
            let evF := Ev.write .createFull [fullPayload cid gid ed pv]
            if 300 ≤ w1.status then
              let w2 := ω (rg.k + 2)
              let evM := Ev.write .createMin [minimalPayload cid gid ed pv]
              if 300 ≤ w2.status then
                ⟨rc.cache, rg.cache, rg.k + 3, rc.evs ++ rg.evs ++ [evS, evF, evM], .fail⟩
              else
                ⟨rc.cache, rg.cache, rg.k + 3, rc.evs ++ rg.evs ++ [evS, evF, evM], .cre⟩
            else
              ⟨rc.cache, rg.cache, rg.k + 2, rc.evs ++ rg.evs ++ [evS, evF], .cre⟩

/-- Run state of `airtable_sync_linked`: both caches, the summary
counters, the call counter and the request trace. -/
structure St where
  cityCache : List (String × String)
  cfgCache : List (String × String)
  updated : Nat
  created : Nat
  failures : Nat
  k : Nat
  trace : List Ev
deriving Repr

/-- The state at the start of a run. -/
def St.start : St := ⟨[], [], 0, 0, 0, 0, []⟩

/-- Apply one row's outcome to the run state. -/
def applyRow (st : St) (o : RowOut) : St :=
  { cityCache := o.cityCache
    cfgCache := o.cfgCache
    updated := st.updated + (if o.tally = .upd then 1 else 0)
    created := st.created + (if o.tally = .cre then 1 else 0)
    failures := st.failures + (if o.tally = .fail then 1 else 0)
    k := o.k
    trace := st.trace ++ o.evs }

/-- Process one row: compute its outcome from the current caches and call
counter and fold it into the state. -/
def syncRow (ω : Nat → Resp) (cT gT : String) (st : St) (row : Row) : St :=
  applyRow st (rowStep ω cT gT st.cityCache st.cfgCache st.k row)

/-- The row loop of `airtable_sync_linked` from a given state. -/
def syncFrom (ω : Nat → Resp) (cT gT : String) (st : St) (rows : List Row) : St :=
  rows.foldl (syncRow ω cT gT) st

/-- A whole run of the row loop of `airtable_sync_linked`
(push_csv.py lines 193-284). -/
def sync (ω : Nat → Resp) (cT gT : String) (rows : List Row) : St :=
  syncFrom ω cT gT St.start rows

/-- A row is skipped exactly when its stripped city, stripped
configuration or formatted date is empty (push_csv.py line 199). -/
def skipRow (row : Row) : Bool :=
  rowCity row = "" || rowCfg row = "" || rowDate row = ""

/-- The record counts of the write requests of a trace, in order. -/
def writeSizes (tr : List Ev) : List Nat :=
  tr.filterMap fun e =>
    match e with
    | .write _ records => some records.length
    | _ => none

/-- Count of lookup requests for a (table, name) pair in a trace. -/
def countFind (table name : String) (tr : List Ev) : Nat :=
  tr.countP fun e =>
    match e with
    | .findIn t n => t = table ∧ n = name
    | _ => false

/-- Count of create requests for a (table, name) pair in a trace. -/
def countCreate (table name : String) (tr : List Ev) : Nat :=
  tr.countP fun e =>
    match e with
    | .createIn t n => t = table ∧ n = name
    | _ => false

/-! ### Configuration gates (push_csv.py lines 153-169,
print_override_table.py lines 39-44) -/

/-- Python truthiness of an `env.get` result (`None` and `""` are
falsy). -/
def truthy : Option String → Bool
  | none => false
  | some s => s ≠ ""

/-- Python `a or default` on an `env.get` result. -/
def orDefault (v : Option String) (d : String) : String :=
  match v with
  | some s => if s ≠ "" then s else d
  | none => d

/-- Outcome of the configuration gate of `airtable_sync_linked`. -/
inductive GateResult where
  | skipMissingEnv
  | skipMissingCsv
  | proceed (token base rents cities configs : String)
deriving DecidableEq, Repr

/-- The configuration gate of `airtable_sync_linked` (push_csv.py lines
153-168): read token, base and the table names (the latter with truthy
defaults), print a warning and return when token or base is missing, then
skip when the CSV file is absent. -/
def syncGate (env : List (String × String)) (csvExists : Bool) : GateResult :=
  let token := lookupKey env "AIRTABLE_TOKEN"
  let base := lookupKey env "AIRTABLE_BASE"
  let rents := orDefault (lookupKey env "AIRTABLE_RENTS_TABLE")
    (orDefault (lookupKey env "AIRTABLE_TABLE") "Rents")
  let cities := orDefault (lookupKey env "AIRTABLE_CITIES_TABLE") "Cities"
  let configs := orDefault (lookupKey env "AIRTABLE_CONFIGS_TABLE") "Configs"
  if ¬ (truthy token ∧ truthy base ∧ rents ≠ "" ∧ cities ≠ "" ∧ configs ≠ "") then
    .skipMissingEnv
  else if ¬ csvExists then .skipMissingCsv
  else .proceed ((token.getD "")) ((base.getD "")) rents cities configs

/-- Python `env[key]`: the value, or a `KeyError` when absent. -/
def pyGetItem (env : List (String × String)) (k : String) : Except String String :=
  match lookupKey env k with
  | some v => .ok v
  | none => .error ("KeyError: " ++ k)

/-- The configuration reads of `print_override_table.main`
(print_override_table.py lines 39-44): the base, overrides table and
token are read with `env[...]` (raising `KeyError` when missing, in
argument order), the view with `env.get(...) or None`. -/
def printOverridesMain (env : List (String × String)) :
    Except String (String × String × String × Option String) := do
  let base ← pyGetItem env "AIRTABLE_BASE"
  let table ← pyGetItem env "AIRTABLE_OVERRIDES_TABLE"
  let token ← pyGetItem env "AIRTABLE_TOKEN"
  let view := match lookupKey env "AIRTABLE_OVERRIDES_VIEW" with
    | some s => if s ≠ "" then some s else none
    | none => none
  .ok (base, table, token, view)

/-! ### Concrete fixtures for witnesses and counterexamples -/

/-- Oracle of a run in which every remote call succeeds, no list call
matches, and every create returns the id `recNew`. -/
def allOkNotFound : Nat → Resp := fun _ => ⟨200, none, "recNew"⟩

/-- A well-formed CSV row. -/
def okRow : Row := ⟨some "Panama City", some "2 BR", some "05/01/2025", some "950"⟩

/-- Twenty-three identical well-formed rows, the batching scenario named
by the specification. -/
def rows23 : List Row := List.replicate 23 okRow

/-- A row with no date column: a required field is missing. -/
def noDateRow : Row := ⟨some "Panama City", some "2 BR", none, none⟩

/-- Three rows of which the last lacks its date: two creations and one
skip. -/
def rowsWithSkip : List Row := [okRow, okRow, noDateRow]

/-- Oracle whose first call fails with a server error and whose later
calls succeed without matches. -/
def failFirst : Nat → Resp := fun n => if n = 0 then ⟨500, none, "recNew"⟩ else ⟨200, none, "recNew"⟩

/-- Two identical well-formed rows. -/
def rowsTwice : List Row := [okRow, okRow]

/-- A row whose city name and configuration label are the same text. -/
def sameNameRow : Row := ⟨some "X", some "X", some "2025-05-01", none⟩

/-- Oracle for the retry scenario: the search finds an existing record
and both write attempts are rejected with 422. -/
def rejectWrites : Nat → Resp := fun n => if n = 0 then ⟨200, some "rent1", ""⟩ else ⟨422, none, ""⟩

/-- A run state whose caches already hold the linked ids for `A` and `B`. -/
def cachedSt : St := ⟨[("A", "r1")], [("B", "r2")], 0, 0, 0, 0, []⟩

/-- A well-formed row referencing the cached city `A` and configuration
`B`. -/
def cachedRow : Row := ⟨some "A", some "B", some "2025-05-01", some "950"⟩

/-- Invariant tying the per-run caches to the request trace: a name
absent from a cache has never been looked up or created in the
corresponding table, and a cached name was looked up and created at most
once. -/
def CacheInv (cT gT : String) (st : St) : Prop :=
  ∀ n : String,
    (lookupKey st.cityCache n = none →
      countFind cT n st.trace = 0 ∧ countCreate cT n st.trace = 0) ∧
    countFind cT n st.trace ≤ 1 ∧ countCreate cT n st.trace ≤ 1 ∧
    (lookupKey st.cfgCache n = none →
      countFind gT n st.trace = 0 ∧ countCreate gT n st.trace = 0) ∧
    countFind gT n st.trace ≤ 1 ∧ countCreate gT n st.trace ≤ 1

/-! ## Theorems -/

/-- A successful `strptime` only ever returns a constructible date. -/
theorem strptime1_dateOK {re : List Char → Option PDate} {s : String} {d : PDate}
    (h : strptime1 re s = some d) : dateOK d = true := by
  unfold strptime1 at h
  cases hre : re s.toList with
  | none => rw [hre] at h; exact Option.noConfusion h
  | some d0 =>
    rw [hre] at h
    by_cases hok : dateOK d0
    · simp [hok] at h
      exact h ▸ hok
    · simp [hok] at h

/-- Claim C4: date coercion tries the ordered format list `%m/%d/%Y`,
`%Y-%m-%d`, `%m/%d/%y`, re-emits the first successful parse in canonical
ISO form, and returns the input unchanged (total, hence never raising)
when no format matches; numeric coercion strips the commas, parses as a
Python float, and returns the input unchanged (again total) when
unparseable. -/
theorem c4_coercions (s : String) (v : Option String) :
    (strptime1 reMDY s = none → strptime1 reYMD s = none → strptime1 reMDy s = none →
      fmt_date s = s) ∧
    (∀ d, strptime1 reMDY s = some d → fmt_date s = isoStr d) ∧
    (∀ d, strptime1 reMDY s = none → strptime1 reYMD s = some d → fmt_date s = isoStr d) ∧
    (∀ d, strptime1 reMDY s = none → strptime1 reYMD s = none → strptime1 reMDy s = some d →
      fmt_date s = isoStr d) ∧
    (fmt_date s = s ∨ ∃ d, dateOK d = true ∧ fmt_date s = isoStr d) ∧
    (pyFloatOfString (stripCommas (pyStr v)) = none →
      to_float v = (match v with | none => PyVal.vNone | some s0 => PyVal.vStr s0)) ∧
    (∀ f, pyFloatOfString (stripCommas (pyStr v)) = some f → to_float v = PyVal.vNum f) := by
  refine ⟨?_, ?_, ?_, ?_, ?_, ?_, ?_⟩
  · intro h1 h2 h3
    by_cases hs : s = ""
    · simp [fmt_date, hs]
    · simp [fmt_date, hs, h1, h2, h3]
  · intro d h
    by_cases hs : s = ""
    · subst hs
      simp [show strptime1 reMDY "" = (none : Option PDate) from rfl] at h
    · simp [fmt_date, hs, h]
  · intro d h1 h2
    by_cases hs : s = ""
    · subst hs
      simp [show strptime1 reYMD "" = (none : Option PDate) from rfl] at h2
    · simp [fmt_date, hs, h1, h2]
  · intro d h1 h2 h3
    by_cases hs : s = ""
    · subst hs
      simp [show strptime1 reMDy "" = (none : Option PDate) from rfl] at h3
    · simp [fmt_date, hs, h1, h2, h3]
  · by_cases hs : s = ""
    · left; simp [fmt_date, hs]
    · cases h1 : strptime1 reMDY s with
      | some d => exact Or.inr ⟨d, strptime1_dateOK h1, by simp [fmt_date, hs, h1]⟩
      | none =>
        cases h2 : strptime1 reYMD s with
        | some d => exact Or.inr ⟨d, strptime1_dateOK h2, by simp [fmt_date, hs, h1, h2]⟩
        | none =>
          cases h3 : strptime1 reMDy s with
          | some d => exact Or.inr ⟨d, strptime1_dateOK h3, by simp [fmt_date, hs, h1, h2, h3]⟩
          | none => exact Or.inl (by simp [fmt_date, hs, h1, h2, h3])
  · intro h
    cases v with
    | none => simp [to_float, h]
    | some s0 => simp [to_float, h]
  · intro f h
    simp [to_float, h]

/-- Witness for C4 at concrete inputs: a slash date re-emitted in ISO form,
an ISO date accepted by the second format, a non-date passed through,
a comma-grouped number parsed, and an unparseable value passed through. -/
theorem c4_witness :
    fmt_date "05/01/2025" = "2025-05-01" ∧
    fmt_date "2025-05-01" = "2025-05-01" ∧
    fmt_date "not a date" = "not a date" ∧
    to_float (some "1,234.5") = PyVal.vNum (PF.num false 12345 (-1)) ∧
    to_float (some "n/a") = PyVal.vStr "n/a" := by
  refine ⟨?_, ?_, ?_, ?_, ?_⟩
  · exact ((c4_coercions "05/01/2025" none).2.1 ⟨5, 1, 2025⟩ (by decide)).trans (by decide)
  · exact ((c4_coercions "2025-05-01" none).2.2.1 ⟨5, 1, 2025⟩ (by decide) (by decide)).trans
      (by decide)
  · exact (c4_coercions "not a date" none).1 (by decide) (by decide) (by decide)
  · exact (c4_coercions "" (some "1,234.5")).2.2.2.2.2.2 (PF.num false 12345 (-1)) (by decide)
  · exact ((c4_coercions "" (some "n/a")).2.2.2.2.2.1 (by decide)).trans rfl

/-- Appending records with the mid-page cap check takes exactly the prefix
that fits below the cap. -/
theorem appendUpTo_eq {α : Type} (limit : Nat) (recs : List α) :
    ∀ out : List α, out.length < limit →
      appendUpTo limit out recs = out ++ recs.take (limit - out.length) := by
  induction recs with
  | nil => intro out h; simp [appendUpTo]
  | cons r rs ih =>
    intro out h
    unfold appendUpTo
    by_cases hc : limit ≤ (out ++ [r]).length
    · rw [if_pos hc]
      have hlen : limit - out.length = 1 := by simp at hc; omega
      rw [hlen]
      simp
    · rw [if_neg hc]
      simp at hc
      have h2 : (out ++ [r]).length < limit := by simp; omega
      rw [ih (out ++ [r]) h2]
      have hm : limit - out.length = (limit - (out.length + 1)) + 1 := by omega
      rw [hm, List.take_succ_cons]
      simp

/-- The pagination loop, when every page is a success response, returns
the already-collected records followed by as much of the remaining pages'
concatenation as still fits below the cap. -/
theorem fetchGo_ok {α : Type} (limit : Nat) (pages : List (PageR α))
    (hok : ∀ p ∈ pages, ¬ (400 ≤ p.status ∧ p.status < 600)) :
    ∀ out : List α,
      fetchGo limit pages out = .ok (out ++ ((pages.map PageR.recs).flatten).take (limit - out.length)) := by
  induction pages with
  | nil => intro out; simp [fetchGo]
  | cons p rest ih =>
    intro out
    have hok1 : raise_for_status p = .ok () := by
      unfold raise_for_status
      rw [if_neg (hok p (List.mem_cons_self p rest))]
    unfold fetchGo
    simp only [List.map_cons, List.flatten_cons]
    by_cases h1 : out.length < limit
    · rw [if_pos h1, hok1]
      dsimp only
      have happ := appendUpTo_eq limit p.recs out h1
      by_cases hre : rest.isEmpty
      · have hrnil : rest = [] := List.isEmpty_iff.mp hre
        subst hrnil
        simp only [List.isEmpty_nil, true_or, if_true]
        rw [happ]
        simp
      · by_cases h2 : limit ≤ (appendUpTo limit out p.recs).length
        · rw [if_pos (Or.inr h2)]
          rw [happ] at h2 ⊢
          have hplen : limit - out.length ≤ p.recs.length := by
            simp [List.length_take] at h2
            omega
          rw [@List.take_append_eq_append_take _ p.recs _ _]
          have hz : limit - out.length - p.recs.length = 0 := by omega
          rw [hz]
          simp
        · have hcond : ¬ (rest.isEmpty = true ∨ limit ≤ (appendUpTo limit out p.recs).length) := by
            simp [hre, h2]
          rw [if_neg hcond]
          rw [ih (fun q hq => hok q (List.mem_cons_of_mem p hq)) (appendUpTo limit out p.recs)]
          rw [happ] at h2 ⊢
          have hfull : p.recs.length < limit - out.length := by
            simp [List.length_take] at h2
            omega
          rw [List.take_of_length_le (le_of_lt hfull)]
          rw [@List.take_append_eq_append_take _ p.recs _ _,
            List.take_of_length_le (le_of_lt hfull)]
          simp [List.append_assoc, List.length_append, Nat.sub_sub]
    · rw [if_neg h1]
      have hz : limit - out.length = 0 := by omega
      rw [hz]
      simp

theorem c5_fetch_all {α : Type} (limit : Nat) (pages : List (PageR α))
    (hok : ∀ p ∈ pages, ¬ (400 ≤ p.status ∧ p.status < 600)) :
    fetch_all limit pages = .ok (((pages.map PageR.recs).flatten).take limit) ∧
    ∀ out, fetch_all limit pages = .ok out → out.length ≤ limit := by
  unfold fetch_all
  have h := fetchGo_ok limit pages hok []
  simp only [List.nil_append, Nat.sub_zero] at h
  refine ⟨h, ?_⟩
  intro out hout
  rw [h] at hout
  cases hout
  exact List.length_take_le limit _

theorem c5_witness :
    fetch_all 3 [({ status := 200, body := "", recs := ["a", "b"] } : PageR String),
      { status := 200, body := "", recs := ["c", "d"] }] = .ok ["a", "b", "c"] ∧
    (["a", "b", "c"] : List String).length ≤ 3 := by
  have h := c5_fetch_all 3 [({ status := 200, body := "", recs := ["a", "b"] } : PageR String),
    { status := 200, body := "", recs := ["c", "d"] }] (by decide)
  exact ⟨h.1.trans rfl, h.2 ["a", "b", "c"] (h.1.trans rfl)⟩

/-- Counterexample to C6 as stated: a 300 response is not a 2xx success,
yet the paginated fetch (which relies on `raise_for_status`, raising only
for 4xx/5xx) accepts it and returns its records instead of failing. -/
theorem c6_cex :
    fetch_all 10 [({ status := 300, body := "redirect", recs := ["a"] } : PageR String)] =
      Except.ok ["a"] := by
  rfl

/-- Claim C6, amended: the lookup/create path of push_csv raises on every
status ≥ 300, with the error message carrying the status and the body; the
paginated fetch raises (as an `Except.error`, so no partial dataset is
returned) exactly on 4xx/5xx statuses, carrying status and body. -/
theorem c6_amended :
    (∀ (table : String) (r : ListResp), 300 ≤ r.status →
      findIdResp table r =
        .error ("Lookup error [" ++ table ++ "]: " ++ toString r.status ++ " " ++ r.body)) ∧
    (∀ (p : PageR String) (rest : List (PageR String)) (limit : Nat),
      0 < limit → 400 ≤ p.status → p.status < 600 →
      fetch_all limit (p :: rest) = .error (p.status, p.body)) := by
  constructor
  · intro table r h
    unfold findIdResp
    rw [if_pos h]
  · intro p rest limit hl h4 h6
    unfold fetch_all fetchGo
    rw [if_pos (by simpa using hl)]
    unfold raise_for_status
    rw [if_pos ⟨h4, h6⟩]

/-- Witness for C6 (amended) at concrete inputs: a 404 lookup raises with
status and body in the message, and a 500 first page aborts the fetch with
status and body. -/
theorem c6_witness :
    findIdResp "Cities" ⟨404, "missing", none⟩ =
      .error "Lookup error [Cities]: 404 missing" ∧
    fetch_all 10 [({ status := 500, body := "boom", recs := ["a"] } : PageR String)] =
      .error (500, "boom") := by
  constructor
  · exact (c6_amended.1 "Cities" ⟨404, "missing", none⟩ (by decide)).trans (by rfl)
  · exact c6_amended.2 { status := 500, body := "boom", recs := ["a"] } [] 10
      (by decide) (by decide) (by decide)

/-- A key that fails the membership test has no binding. -/
theorem lookupKey_eq_none_of_hasKey_false {α : Type} (k : String) :
    ∀ fs : List (String × α), hasKey fs k = false → lookupKey fs k = none := by
  intro fs
  induction fs with
  | nil => intro _; rfl
  | cons p ps ih =>
    intro h
    simp [hasKey] at h
    simp [lookupKey, h.1, ih h.2]

/-- Overwriting a present key makes its binding the new value. -/
theorem lookupKey_map_set {α : Type} (k : String) (v : α) :
    ∀ fs : List (String × α), hasKey fs k = true →
      lookupKey (fs.map (fun p => if p.1 = k then (k, v) else p)) k = some v := by
  intro fs
  induction fs with
  | nil => intro h; simp [hasKey] at h
  | cons p ps ih =>
    intro h
    by_cases hp : p.1 = k
    · simp [lookupKey, hp]
    · simp [hasKey, hp] at h
      simp [lookupKey, hp, ih h]

/-- Overwriting one key leaves the binding of any other key unchanged. -/
theorem lookupKey_map_set_ne {α : Type} (k k' : String) (v : α) (h : k' ≠ k) :
    ∀ fs : List (String × α),
      lookupKey (fs.map (fun p => if p.1 = k' then (k', v) else p)) k = lookupKey fs k := by
  intro fs
  induction fs with
  | nil => rfl
  | cons p ps ih =>
    by_cases hp : p.1 = k'
    · simp [lookupKey, hp, h, ih]
    · simp only [List.map_cons, if_neg hp]
      simp [lookupKey, ih]

/-- A binding survives appending further entries. -/
theorem lookupKey_append_some {α : Type} {k : String} {v : α} :
    ∀ {fs : List (String × α)} (l : List (String × α)), lookupKey fs k = some v →
      lookupKey (fs ++ l) k = some v := by
  intro fs
  induction fs with
  | nil => intro l h; simp [lookupKey] at h
  | cons p ps ih =>
    intro l h
    by_cases hp : p.1 = k
    · simp [lookupKey, hp] at h ⊢
      exact h
    · simp [lookupKey, hp] at h ⊢
      exact ih l h

/-- Looking up in an extended list continues past an absent prefix. -/
theorem lookupKey_append_none {α : Type} {k : String} :
    ∀ {fs : List (String × α)} (l : List (String × α)), lookupKey fs k = none →
      lookupKey (fs ++ l) k = lookupKey l k := by
  intro fs
  induction fs with
  | nil => intro l _; rfl
  | cons p ps ih =>
    intro l h
    by_cases hp : p.1 = k
    · simp [lookupKey, hp] at h
    · simp [lookupKey, hp] at h ⊢
      exact ih l h

/-- Setting a key binds it to the new value. -/
theorem lookupKey_setKey_self {α : Type} (fs : List (String × α)) (k : String) (v : α) :
    lookupKey (setKey fs k v) k = some v := by
  unfold setKey
  by_cases h : hasKey fs k
  · rw [if_pos h]
    exact lookupKey_map_set k v fs h
  · rw [if_neg h]
    rw [lookupKey_append_none _ (lookupKey_eq_none_of_hasKey_false k fs (by simpa using h))]
    simp [lookupKey]

/-- Setting one key leaves any other key's binding unchanged. -/
theorem lookupKey_setKey_ne {α : Type} (fs : List (String × α)) (k k' : String) (v : α)
    (h : k' ≠ k) : lookupKey (setKey fs k' v) k = lookupKey fs k := by
  unfold setKey
  by_cases hh : hasKey fs k'
  · rw [if_pos hh]
    exact lookupKey_map_set_ne k k' v h fs
  · rw [if_neg hh]
    cases hl : lookupKey fs k with
    | some v0 => exact lookupKey_append_some _ hl
    | none =>
      rw [lookupKey_append_none _ hl]
      simp [lookupKey, h]

/-- A dict update whose keys avoid `k` leaves `k`'s binding unchanged. -/
theorem lookupKey_dictUpdate_ne {α : Type} (k : String) :
    ∀ (extra fs : List (String × α)), (∀ kv ∈ extra, kv.1 ≠ k) →
      lookupKey (dictUpdate fs extra) k = lookupKey fs k := by
  intro extra
  induction extra with
  | nil => intro fs _; rfl
  | cons kv es ih =>
    intro fs h
    have hstep : dictUpdate fs (kv :: es) = dictUpdate (setKey fs kv.1 kv.2) es := rfl
    rw [hstep, ih (setKey fs kv.1 kv.2) (fun q hq => h q (List.mem_cons_of_mem kv hq)),
      lookupKey_setKey_ne fs k kv.1 kv.2 (h kv (List.mem_cons_self kv es))]

/-- A successful name lookup returns the id of some record of the table. -/
theorem find_id_mem {t : LTable} {pf name rid : String}
    (h : find_record_id_by_name t pf name = some rid) : ∃ r ∈ t.recs, r.rid = rid := by
  unfold find_record_id_by_name at h
  cases hf : t.recs.find? (fun r => fieldText r.fields pf = name) with
  | none => rw [hf] at h; exact Option.noConfusion h
  | some r =>
    rw [hf] at h
    cases h
    exact ⟨r, List.mem_of_find?_eq_some hf, rfl⟩

/-- Counterexample to C1 as stated: when the extra fields themselves bind
the primary field, `dict.update` lets them override it, so the created
record's primary field is the extra value, not the requested name. -/
theorem c1_cex :
    find_record_id_by_name ⟨[], 0⟩ "city" "Panama" = none ∧
    ((get_or_create_linked ⟨[], 0⟩ "city" "Panama" [("city", "Boquete")]).2.recs.map
      (fun r => fieldText r.fields "city")) = ["Boquete"] ∧
    ¬ ((get_or_create_linked ⟨[], 0⟩ "city" "Panama" [("city", "Boquete")]).2.recs.map
      (fun r => fieldText r.fields "city")) = ["Panama"] := by
  decide

/-- Claim C1, amended: on a well-formed table (no empty record ids) and
with extra fields that do not bind the primary field, get-or-create
returns the first matching record's id unchanged when the exact-match
lookup succeeds (no creation), and otherwise appends exactly one new
record whose primary field equals the name (with the extra fields
applied) and returns its fresh identifier. -/
theorem c1_get_or_create (t : LTable) (pf name : String) (extra : List (String × String))
    (hwf : ∀ r ∈ t.recs, r.rid ≠ "") (hex : ∀ kv ∈ extra, kv.1 ≠ pf) :
    (∀ rid, find_record_id_by_name t pf name = some rid →
      get_or_create_linked t pf name extra = (rid, t)) ∧
    (find_record_id_by_name t pf name = none →
      (get_or_create_linked t pf name extra).2.recs =
        t.recs ++ [⟨(get_or_create_linked t pf name extra).1, dictUpdate [(pf, name)] extra⟩] ∧
      fieldText (dictUpdate [(pf, name)] extra) pf = name) := by
  constructor
  · intro rid h
    unfold get_or_create_linked
    rw [h]
    obtain ⟨r, hr, hrid⟩ := find_id_mem h
    dsimp only
    rw [if_pos (hrid ▸ hwf r hr)]
  · intro h
    unfold get_or_create_linked
    rw [h]
    refine ⟨rfl, ?_⟩
    unfold fieldText
    rw [lookupKey_dictUpdate_ne pf extra [(pf, name)] hex]
    simp [lookupKey]

/-- Witness for C1 (amended): a matching record is returned as-is without
creating, and a missing name is created with the primary field set to it. -/
theorem c1_witness :
    get_or_create_linked ⟨[⟨"recA", [("city", "Panama")]⟩], 5⟩ "city" "Panama" [] =
      ("recA", ⟨[⟨"recA", [("city", "Panama")]⟩], 5⟩) ∧
    fieldText (dictUpdate [("city", "Boquete")] []) "city" = "Boquete" := by
  constructor
  · exact (c1_get_or_create ⟨[⟨"recA", [("city", "Panama")]⟩], 5⟩ "city" "Panama" []
      (by decide) (by decide)).1 "recA" (by decide)
  · exact ((c1_get_or_create ⟨[⟨"recA", [("city", "Panama")]⟩], 5⟩ "city" "Boquete" []
      (by decide) (by decide)).2 (by decide)).2

/-- Claim C10 core: patching any record with the full payload binds
currency to "USD" and active to true regardless of the previous values,
while the minimal payload leaves both bindings unchanged. -/
theorem c10_optional_fields (f : List (String × FVal)) (cid gid ed : String) (pv : PyVal) :
    lookupKey (patchFields (fullPayload cid gid ed pv) f) "currency" = some (.fstr "USD") ∧
    lookupKey (patchFields (fullPayload cid gid ed pv) f) "active" = some (.fbool true) ∧
    lookupKey (patchFields (minimalPayload cid gid ed pv) f) "currency" = lookupKey f "currency" ∧
    lookupKey (patchFields (minimalPayload cid gid ed pv) f) "active" = lookupKey f "active" := by
  refine ⟨?_, ?_, ?_, ?_⟩ <;>
    simp [patchFields, fullPayload, minimalPayload, List.foldl,
      lookupKey_setKey_ne, lookupKey_setKey_self]

/-- A cached name resolves immediately: no remote request, no state
change. -/
theorem resolveName_hit (ω : Nat → Resp) (table name : String)
    (cache : List (String × String)) (k : Nat) (rid : String)
    (h : lookupKey cache name = some rid) :
    resolveName ω table name cache k = ⟨some rid, cache, k, []⟩ := by
  unfold resolveName
  rw [h]


/-- Characterisation of one row when the search finds an existing record
and the full-payload update is accepted. -/
theorem rowStep_upd_full (ω : Nat → Resp) (cT gT : String)
    (cc gc : List (String × String)) (k : Nat) (row : Row) (cid gid rid : String)
    (hcn : rowCity row ≠ "") (hcl : rowCfg row ≠ "") (hed : rowDate row ≠ "")
    (hc : lookupKey cc (rowCity row) = some cid)
    (hg : lookupKey gc (rowCfg row) = some gid)
    (hs : (ω k).status < 300)
    (hfi : (ω k).firstId = some rid)
    (hw1 : (ω (k + 1)).status < 300) :
    rowStep ω cT gT cc gc k row = ⟨cc, gc, k + 2,
      [Ev.searchRent (rowCity row) (rowCfg row) (rowDate row),
       Ev.write (.updateFull rid) [fullPayload cid gid (rowDate row) (rowPrice row)]], .upd⟩ := by
  simp [rowStep, resolveName_hit, hc, hg, hcn, hcl, hed, hfi,
    Nat.not_le.mpr hs, Nat.not_le.mpr hw1]
theorem rowStep_upd_min (ω : Nat → Resp) (cT gT : String)
    (cc gc : List (String × String)) (k : Nat) (row : Row) (cid gid rid : String)
    (hcn : rowCity row ≠ "") (hcl : rowCfg row ≠ "") (hed : rowDate row ≠ "")
    (hc : lookupKey cc (rowCity row) = some cid)
    (hg : lookupKey gc (rowCfg row) = some gid)
    (hs : (ω k).status < 300)
    (hfi : (ω k).firstId = some rid)
    (hw1 : 300 ≤ (ω (k + 1)).status)
    (hw2 : (ω (k + 2)).status < 300) :
    rowStep ω cT gT cc gc k row = ⟨cc, gc, k + 3,
      [Ev.searchRent (rowCity row) (rowCfg row) (rowDate row),
       Ev.write (.updateFull rid) [fullPayload cid gid (rowDate row) (rowPrice row)],
       Ev.write (.updateMin rid) [minimalPayload cid gid (rowDate row) (rowPrice row)]],
      .upd⟩ := by
  simp [rowStep, resolveName_hit, hc, hg, hcn, hcl, hed, hfi, hw1,
    Nat.not_le.mpr hs, Nat.not_le.mpr hw2]

theorem rowStep_upd_fail (ω : Nat → Resp) (cT gT : String)
    (cc gc : List (String × String)) (k : Nat) (row : Row) (cid gid rid : String)
    (hcn : rowCity row ≠ "") (hcl : rowCfg row ≠ "") (hed : rowDate row ≠ "")
    (hc : lookupKey cc (rowCity row) = some cid)
    (hg : lookupKey gc (rowCfg row) = some gid)
    (hs : (ω k).status < 300)
    (hfi : (ω k).firstId = some rid)
    (hw1 : 300 ≤ (ω (k + 1)).status)
    (hw2 : 300 ≤ (ω (k + 2)).status) :
    rowStep ω cT gT cc gc k row = ⟨cc, gc, k + 3,
      [Ev.searchRent (rowCity row) (rowCfg row) (rowDate row),
       Ev.write (.updateFull rid) [fullPayload cid gid (rowDate row) (rowPrice row)],
       Ev.write (.updateMin rid) [minimalPayload cid gid (rowDate row) (rowPrice row)]],
      .fail⟩ := by
  simp [rowStep, resolveName_hit, hc, hg, hcn, hcl, hed, hfi, hw1, hw2,
    Nat.not_le.mpr hs]

theorem rowStep_cre_full (ω : Nat → Resp) (cT gT : String)
    (cc gc : List (String × String)) (k : Nat) (row : Row) (cid gid : String)
    (hcn : rowCity row ≠ "") (hcl : rowCfg row ≠ "") (hed : rowDate row ≠ "")
    (hc : lookupKey cc (rowCity row) = some cid)
    (hg : lookupKey gc (rowCfg row) = some gid)
    (hs : (ω k).status < 300)
    (hfi : (ω k).firstId = none)
    (hw1 : (ω (k + 1)).status < 300) :
    rowStep ω cT gT cc gc k row = ⟨cc, gc, k + 2,
      [Ev.searchRent (rowCity row) (rowCfg row) (rowDate row),
       Ev.write .createFull [fullPayload cid gid (rowDate row) (rowPrice row)]], .cre⟩ := by
  simp [rowStep, resolveName_hit, hc, hg, hcn, hcl, hed, hfi,
    Nat.not_le.mpr hs, Nat.not_le.mpr hw1]

theorem rowStep_cre_min (ω : Nat → Resp) (cT gT : String)
    (cc gc : List (String × String)) (k : Nat) (row : Row) (cid gid : String)
    (hcn : rowCity row ≠ "") (hcl : rowCfg row ≠ "") (hed : rowDate row ≠ "")
    (hc : lookupKey cc (rowCity row) = some cid)
    (hg : lookupKey gc (rowCfg row) = some gid)
    (hs : (ω k).status < 300)
    (hfi : (ω k).firstId = none)
    (hw1 : 300 ≤ (ω (k + 1)).status)
    (hw2 : (ω (k + 2)).status < 300) :
    rowStep ω cT gT cc gc k row = ⟨cc, gc, k + 3,
      [Ev.searchRent (rowCity row) (rowCfg row) (rowDate row),
       Ev.write .createFull [fullPayload cid gid (rowDate row) (rowPrice row)],
       Ev.write .createMin [minimalPayload cid gid (rowDate row) (rowPrice row)]],
      .cre⟩ := by
  simp [rowStep, resolveName_hit, hc, hg, hcn, hcl, hed, hfi, hw1,
    Nat.not_le.mpr hs, Nat.not_le.mpr hw2]

theorem rowStep_cre_fail (ω : Nat → Resp) (cT gT : String)
    (cc gc : List (String × String)) (k : Nat) (row : Row) (cid gid : String)
    (hcn : rowCity row ≠ "") (hcl : rowCfg row ≠ "") (hed : rowDate row ≠ "")
    (hc : lookupKey cc (rowCity row) = some cid)
    (hg : lookupKey gc (rowCfg row) = some gid)
    (hs : (ω k).status < 300)
    (hfi : (ω k).firstId = none)
    (hw1 : 300 ≤ (ω (k + 1)).status)
    (hw2 : 300 ≤ (ω (k + 2)).status) :
    rowStep ω cT gT cc gc k row = ⟨cc, gc, k + 3,
      [Ev.searchRent (rowCity row) (rowCfg row) (rowDate row),
       Ev.write .createFull [fullPayload cid gid (rowDate row) (rowPrice row)],
       Ev.write .createMin [minimalPayload cid gid (rowDate row) (rowPrice row)]],
      .fail⟩ := by
  simp [rowStep, resolveName_hit, hc, hg, hcn, hcl, hed, hfi, hw1, hw2,
    Nat.not_le.mpr hs]

theorem applyRow_upd (st : St) (cc gc : List (String × String)) (k : Nat) (evs : List Ev) :
    applyRow st ⟨cc, gc, k, evs, .upd⟩ =
      { st with
        cityCache := cc
        cfgCache := gc
        k := k
        trace := st.trace ++ evs
        updated := st.updated + 1 } := by
  simp [applyRow]

theorem applyRow_cre (st : St) (cc gc : List (String × String)) (k : Nat) (evs : List Ev) :
    applyRow st ⟨cc, gc, k, evs, .cre⟩ =
      { st with
        cityCache := cc
        cfgCache := gc
        k := k
        trace := st.trace ++ evs
        created := st.created + 1 } := by
  simp [applyRow]

theorem applyRow_fail (st : St) (cc gc : List (String × String)) (k : Nat) (evs : List Ev) :
    applyRow st ⟨cc, gc, k, evs, .fail⟩ =
      { st with
        cityCache := cc
        cfgCache := gc
        k := k
        trace := st.trace ++ evs
        failures := st.failures + 1 } := by
  simp [applyRow]
/-- Claim C2: for a row that reaches the write phase (fields present,
linked ids cached, search succeeded), the first write attempt is a single
request carrying the full payload (with the optional currency and active
fields); when the store rejects it, exactly one second attempt follows
with only the four mandatory fields; when that one is also rejected, the
failure counter is incremented; and in every case the loop continues with
the remaining rows. -/
theorem c2_write_retry (ω : Nat → Resp) (cT gT : String) (st : St) (row : Row)
    (rest : List Row) (cid gid : String)
    (hcn : rowCity row ≠ "") (hcl : rowCfg row ≠ "") (hed : rowDate row ≠ "")
    (hc : lookupKey st.cityCache (rowCity row) = some cid)
    (hg : lookupKey st.cfgCache (rowCfg row) = some gid)
    (hs : (ω st.k).status < 300) :
    (∀ rid, (ω st.k).firstId = some rid →
      (((ω (st.k + 1)).status < 300 →
        syncRow ω cT gT st row =
          { st with
            k := st.k + 2
            trace := st.trace ++ [Ev.searchRent (rowCity row) (rowCfg row) (rowDate row),
              Ev.write (.updateFull rid) [fullPayload cid gid (rowDate row) (rowPrice row)]]
            updated := st.updated + 1 }) ∧
       (300 ≤ (ω (st.k + 1)).status → (ω (st.k + 2)).status < 300 →
        syncRow ω cT gT st row =
          { st with
            k := st.k + 3
            trace := st.trace ++ [Ev.searchRent (rowCity row) (rowCfg row) (rowDate row),
              Ev.write (.updateFull rid) [fullPayload cid gid (rowDate row) (rowPrice row)],
              Ev.write (.updateMin rid) [minimalPayload cid gid (rowDate row) (rowPrice row)]]
            updated := st.updated + 1 }) ∧
       (300 ≤ (ω (st.k + 1)).status → 300 ≤ (ω (st.k + 2)).status →
        syncRow ω cT gT st row =
          { st with
            k := st.k + 3
            trace := st.trace ++ [Ev.searchRent (rowCity row) (rowCfg row) (rowDate row),
              Ev.write (.updateFull rid) [fullPayload cid gid (rowDate row) (rowPrice row)],
              Ev.write (.updateMin rid) [minimalPayload cid gid (rowDate row) (rowPrice row)]]
            failures := st.failures + 1 }))) ∧
    ((ω st.k).firstId = none →
      (((ω (st.k + 1)).status < 300 →
        syncRow ω cT gT st row =
          { st with
            k := st.k + 2
            trace := st.trace ++ [Ev.searchRent (rowCity row) (rowCfg row) (rowDate row),
              Ev.write .createFull [fullPayload cid gid (rowDate row) (rowPrice row)]]
            created := st.created + 1 }) ∧
       (300 ≤ (ω (st.k + 1)).status → (ω (st.k + 2)).status < 300 →
        syncRow ω cT gT st row =
          { st with
            k := st.k + 3
            trace := st.trace ++ [Ev.searchRent (rowCity row) (rowCfg row) (rowDate row),
              Ev.write .createFull [fullPayload cid gid (rowDate row) (rowPrice row)],
              Ev.write .createMin [minimalPayload cid gid (rowDate row) (rowPrice row)]]
            created := st.created + 1 }) ∧
       (300 ≤ (ω (st.k + 1)).status → 300 ≤ (ω (st.k + 2)).status →
        syncRow ω cT gT st row =
          { st with
            k := st.k + 3
            trace := st.trace ++ [Ev.searchRent (rowCity row) (rowCfg row) (rowDate row),
              Ev.write .createFull [fullPayload cid gid (rowDate row) (rowPrice row)],
              Ev.write .createMin [minimalPayload cid gid (rowDate row) (rowPrice row)]]
            failures := st.failures + 1 }))) ∧
    syncFrom ω cT gT st (row :: rest) = syncFrom ω cT gT (syncRow ω cT gT st row) rest := by
  have hrw : syncRow ω cT gT st row =
      applyRow st (rowStep ω cT gT st.cityCache st.cfgCache st.k row) := rfl
  refine ⟨?_, ?_, rfl⟩
  · intro rid hfi
    refine ⟨?_, ?_, ?_⟩
    · intro hw1
      rw [hrw, rowStep_upd_full ω cT gT st.cityCache st.cfgCache st.k row cid gid rid
        hcn hcl hed hc hg hs hfi hw1, applyRow_upd]
    · intro hw1 hw2
      rw [hrw, rowStep_upd_min ω cT gT st.cityCache st.cfgCache st.k row cid gid rid
        hcn hcl hed hc hg hs hfi hw1 hw2, applyRow_upd]
    · intro hw1 hw2
      rw [hrw, rowStep_upd_fail ω cT gT st.cityCache st.cfgCache st.k row cid gid rid
        hcn hcl hed hc hg hs hfi hw1 hw2, applyRow_fail]
  · intro hfi
    refine ⟨?_, ?_, ?_⟩
    · intro hw1
      rw [hrw, rowStep_cre_full ω cT gT st.cityCache st.cfgCache st.k row cid gid
        hcn hcl hed hc hg hs hfi hw1, applyRow_cre]
    · intro hw1 hw2
      rw [hrw, rowStep_cre_min ω cT gT st.cityCache st.cfgCache st.k row cid gid
        hcn hcl hed hc hg hs hfi hw1 hw2, applyRow_cre]
    · intro hw1 hw2
      rw [hrw, rowStep_cre_fail ω cT gT st.cityCache st.cfgCache st.k row cid gid
        hcn hcl hed hc hg hs hfi hw1 hw2, applyRow_fail]

/-- Witness for C2 at a concrete run: cached ids, search finds an
existing record, both write attempts rejected with 422 — the trace shows
one full then one minimal attempt and the failure counter ends at 1,
while the fold continues past the row. -/
theorem c2_witness :
    syncRow rejectWrites "Cities" "Configs" cachedSt cachedRow =
      { cachedSt with
        k := 3
        trace := [Ev.searchRent "A" "B" "2025-05-01",
          Ev.write (.updateFull "rent1") [fullPayload "r1" "r2" "2025-05-01" (rowPrice cachedRow)],
          Ev.write (.updateMin "rent1") [minimalPayload "r1" "r2" "2025-05-01" (rowPrice cachedRow)]]
        failures := 1 } ∧
    syncFrom rejectWrites "Cities" "Configs" cachedSt [cachedRow] =
      syncFrom rejectWrites "Cities" "Configs"
        (syncRow rejectWrites "Cities" "Configs" cachedSt cachedRow) [] := by
  have h := c2_write_retry rejectWrites "Cities" "Configs" cachedSt cachedRow [] "r1" "r2"
    (by decide) (by decide) (by decide) (by decide) (by decide) (by decide)
  exact ⟨((h.1 "rent1" (by decide)).2.2 (by decide) (by decide)).trans (by rfl), h.2.2⟩
/-- Counterexample to C9: for 23 merged rows the linked-record
synchroniser issues 23 write requests of one record each (the
single-record create/update endpoints), not 3 batch requests of sizes
10, 10 and 3. -/
theorem c9_cex :
    writeSizes (sync allOkNotFound "Cities" "Configs" rows23).trace = List.replicate 23 1 ∧
    writeSizes (sync allOkNotFound "Cities" "Configs" rows23).trace ≠ [10, 10, 3] := by
  decide

/-- Claim C9, amended: the linked-record synchroniser performs no
batching — each write request carries exactly one record, and 23 merged
rows (all creating) yield exactly 23 write requests and 23 created
records. -/
theorem c9_amended :
    (writeSizes (sync allOkNotFound "Cities" "Configs" rows23).trace).length = 23 ∧
    writeSizes (sync allOkNotFound "Cities" "Configs" rows23).trace = List.replicate 23 1 ∧
    (sync allOkNotFound "Cities" "Configs" rows23).created = 23 := by
  decide

/-- Counterexample to C7: the override-print path reads its configuration
with `env[...]`, so a missing base identifier raises `KeyError` (a crash),
instead of being skipped with a warning. -/
theorem c7_cex :
    printOverridesMain [("AIRTABLE_TOKEN", "tok")] = .error "KeyError: AIRTABLE_BASE" := by
  rfl

/-- Claim C7, amended: the push_csv sync path is skipped with a warning
when the token or base is missing (a total function, hence no crash),
while the print_override_table path raises `KeyError` when its base
identifier is missing. -/
theorem c7_amended (env : List (String × String)) (csv : Bool) :
    (truthy (lookupKey env "AIRTABLE_TOKEN") = false → syncGate env csv = .skipMissingEnv) ∧
    (truthy (lookupKey env "AIRTABLE_BASE") = false → syncGate env csv = .skipMissingEnv) ∧
    (lookupKey env "AIRTABLE_BASE" = none →
      printOverridesMain env = .error "KeyError: AIRTABLE_BASE") := by
  refine ⟨?_, ?_, ?_⟩
  · intro h
    simp [syncGate, h]
  · intro h
    simp [syncGate, h]
  · intro h
    simp only [printOverridesMain, pyGetItem, h]
    rfl

/-- Witness for C7 (amended): with an empty configuration the sync path
skips and the print path raises `KeyError`. -/
theorem c7_witness :
    syncGate [] true = .skipMissingEnv ∧
    printOverridesMain [] = .error "KeyError: AIRTABLE_BASE" := by
  have h := c7_amended [] true
  exact ⟨h.1 (by decide), h.2.2 (by decide)⟩

/-- A row with a missing required field is skipped: no requests, no cache
or counter change. -/
theorem rowStep_skip (ω : Nat → Resp) (cT gT : String)
    (cc gc : List (String × String)) (k : Nat) (row : Row) (h : skipRow row = true) :
    rowStep ω cT gT cc gc k row = ⟨cc, gc, k, [], .skip⟩ := by
  simp only [skipRow, Bool.or_eq_true, decide_eq_true_eq] at h
  have h3 : rowCity row = "" ∨ rowCfg row = "" ∨ rowDate row = "" := or_assoc.mp h
  unfold rowStep
  rw [if_pos h3]

/-- A row with all required fields present never yields the skip tally. -/
theorem rowStep_tally_ne_skip (ω : Nat → Resp) (cT gT : String)
    (cc gc : List (String × String)) (k : Nat) (row : Row) (h : skipRow row = false) :
    (rowStep ω cT gT cc gc k row).tally ≠ .skip := by
  have h3 : ¬ (rowCity row = "" ∨ rowCfg row = "" ∨ rowDate row = "") := by
    simp only [skipRow, Bool.or_eq_false_iff, decide_eq_false_iff_not] at h
    tauto
  unfold rowStep
  rw [if_neg h3]
  dsimp only
  (repeat' split) <;> simp

/-- Each processed row bumps the updated/created/failures sum by one
exactly when it is not skipped. -/
theorem syncRow_counterSum (ω : Nat → Resp) (cT gT : String) (st : St) (row : Row) :
    (syncRow ω cT gT st row).updated + (syncRow ω cT gT st row).created +
      (syncRow ω cT gT st row).failures =
    st.updated + st.created + st.failures + (if skipRow row then 0 else 1) := by
  by_cases h : skipRow row
  · rw [if_pos h]
    have hstep := rowStep_skip ω cT gT st.cityCache st.cfgCache st.k row h
    simp [syncRow, hstep, applyRow]
  · rw [if_neg h]
    have hne := rowStep_tally_ne_skip ω cT gT st.cityCache st.cfgCache st.k row
      (by simpa using h)
    rcases htal : (rowStep ω cT gT st.cityCache st.cfgCache st.k row).tally with _ | _ | _ | _
    · exact absurd htal hne
    · simp [syncRow, applyRow, htal]
      omega
    · simp [syncRow, applyRow, htal]
      omega
    · simp [syncRow, applyRow, htal]
      omega

/-- Over a whole run, updated + created + failures + skipped equals the
number of rows. -/
theorem syncFrom_counterSum (ω : Nat → Resp) (cT gT : String) :
    ∀ (rows : List Row) (st : St),
      (syncFrom ω cT gT st rows).updated + (syncFrom ω cT gT st rows).created +
        (syncFrom ω cT gT st rows).failures + rows.countP (fun r => skipRow r) =
      st.updated + st.created + st.failures + rows.length := by
  intro rows
  induction rows with
  | nil => intro st; simp [syncFrom]
  | cons r rs ih =>
    intro st
    have hstep : syncFrom ω cT gT st (r :: rs) = syncFrom ω cT gT (syncRow ω cT gT st r) rs :=
      rfl
    rw [hstep]
    have h1 := ih (syncRow ω cT gT st r)
    have h2 := syncRow_counterSum ω cT gT st r
    by_cases hsk : skipRow r
    · rw [if_pos hsk] at h2
      simp [List.countP_cons, hsk]
      omega
    · rw [if_neg hsk] at h2
      simp [List.countP_cons, hsk]
      omega

/-- Counterexample to C8 as stated: in a three-row run with one skipped
row, none of the reported summary counters (updated 0, created 2,
failures 0, total 3) equals the number of skipped rows — the skip is not
counted in any reported counter, only derivable as total minus the
others. -/
theorem c8_cex :
    rowsWithSkip.countP (fun r => skipRow r) = 1 ∧
    ¬ ((sync allOkNotFound "Cities" "Configs" rowsWithSkip).updated = 1 ∨
      (sync allOkNotFound "Cities" "Configs" rowsWithSkip).created = 1 ∨
      (sync allOkNotFound "Cities" "Configs" rowsWithSkip).failures = 1 ∨
      rowsWithSkip.length = 1) := by
  decide

/-- Claim C8, amended: a row missing a required field is skipped without
any exception (total function) and leaves the run state — trace, caches
and all counters — unchanged, so it is absent from the synced output; no
counter records the skip, but the skipped count is derivable since
updated + created + failures + skipped equals the number of rows. -/
theorem c8_skip_handling (ω : Nat → Resp) (cT gT : String) (rows : List Row) :
    (∀ st row, skipRow row = true → syncRow ω cT gT st row = st) ∧
    ((sync ω cT gT rows).updated + (sync ω cT gT rows).created +
      (sync ω cT gT rows).failures + rows.countP (fun r => skipRow r) = rows.length) := by
  constructor
  · intro st row h
    have hstep := rowStep_skip ω cT gT st.cityCache st.cfgCache st.k row h
    cases st
    simp [syncRow, hstep, applyRow]
  · have h := syncFrom_counterSum ω cT gT rows St.start
    simpa [sync, St.start] using h

/-- Witness for C8 (amended): a dateless row leaves the starting state
untouched, and the three-row run's counters satisfy the accounting
identity. -/
theorem c8_witness :
    syncRow allOkNotFound "Cities" "Configs" St.start noDateRow = St.start ∧
    (sync allOkNotFound "Cities" "Configs" rowsWithSkip).updated +
      (sync allOkNotFound "Cities" "Configs" rowsWithSkip).created +
      (sync allOkNotFound "Cities" "Configs" rowsWithSkip).failures +
      rowsWithSkip.countP (fun r => skipRow r) = rowsWithSkip.length := by
  exact ⟨(c8_skip_handling allOkNotFound "Cities" "Configs" []).1 St.start noDateRow (by decide),
    (c8_skip_handling allOkNotFound "Cities" "Configs" rowsWithSkip).2⟩

theorem lookupKey_append_single_ne {α : Type} (cache : List (String × α)) (name m : String)
    (v : α) (h : m ≠ name) : lookupKey (cache ++ [(name, v)]) m = lookupKey cache m := by
  cases hl : lookupKey cache m with
  | some w => exact lookupKey_append_some _ hl
  | none =>
    rw [lookupKey_append_none _ hl]
    simp [lookupKey, Ne.symm h]

theorem countFind_append (t n : String) (tr1 tr2 : List Ev) :
    countFind t n (tr1 ++ tr2) = countFind t n tr1 + countFind t n tr2 := by
  simp [countFind, List.countP_append]

theorem countCreate_append (t n : String) (tr1 tr2 : List Ev) :
    countCreate t n (tr1 ++ tr2) = countCreate t n tr1 + countCreate t n tr2 := by
  simp [countCreate, List.countP_append]

theorem countFind_single (t m table name : String) :
    countFind t m [Ev.findIn table name] = if table = t ∧ name = m then 1 else 0 := by
  simp [countFind, List.countP_cons]

theorem countCreate_single_find (t m table name : String) :
    countCreate t m [Ev.findIn table name] = 0 := by
  simp [countCreate, List.countP_cons]

theorem countFind_pair (t m table name : String) :
    countFind t m [Ev.findIn table name, Ev.createIn table name] =
      if table = t ∧ name = m then 1 else 0 := by
  simp [countFind, List.countP_cons]

theorem countCreate_pair (t m table name : String) :
    countCreate t m [Ev.findIn table name, Ev.createIn table name] =
      if table = t ∧ name = m then 1 else 0 := by
  simp [countCreate, List.countP_cons]

theorem resolveName_miss_found (ω : Nat → Resp) (table name : String)
    (cache : List (String × String)) (k : Nat) (rid : String)
    (hl : lookupKey cache name = none) (h1 : (ω k).status < 300)
    (hfi : (ω k).firstId = some rid) (hrid : ¬ rid = "") :
    resolveName ω table name cache k =
      ⟨some rid, cache ++ [(name, rid)], k + 1, [Ev.findIn table name]⟩ := by
  unfold resolveName
  rw [hl]
  dsimp only
  rw [if_neg (Nat.not_le.mpr h1), hfi]
  dsimp only
  rw [if_neg hrid]

theorem resolveName_miss_create_none (ω : Nat → Resp) (table name : String)
    (cache : List (String × String)) (k : Nat)
    (hl : lookupKey cache name = none) (h1 : (ω k).status < 300)
    (hfi : (ω k).firstId = none) (h2 : (ω (k + 1)).status < 300) :
    resolveName ω table name cache k =
      ⟨some (ω (k + 1)).newId, cache ++ [(name, (ω (k + 1)).newId)], k + 2,
        [Ev.findIn table name, Ev.createIn table name]⟩ := by
  unfold resolveName
  rw [hl]
  dsimp only
  rw [if_neg (Nat.not_le.mpr h1), hfi]
  dsimp only
  unfold resolveCreate
  rw [if_neg (Nat.not_le.mpr h2)]

theorem resolveName_miss_create_empty (ω : Nat → Resp) (table name : String)
    (cache : List (String × String)) (k : Nat)
    (hl : lookupKey cache name = none) (h1 : (ω k).status < 300)
    (hfi : (ω k).firstId = some "") (h2 : (ω (k + 1)).status < 300) :
    resolveName ω table name cache k =
      ⟨some (ω (k + 1)).newId, cache ++ [(name, (ω (k + 1)).newId)], k + 2,
        [Ev.findIn table name, Ev.createIn table name]⟩ := by
  unfold resolveName
  rw [hl]
  dsimp only
  rw [if_neg (Nat.not_le.mpr h1), hfi]
  dsimp only
  rw [if_pos rfl]
  unfold resolveCreate
  rw [if_neg (Nat.not_le.mpr h2)]

theorem resolveName_spec (ω : Nat → Resp) (table name : String)
    (cache : List (String × String)) (k : Nat)
    (h1 : (ω k).status < 300) (h2 : (ω (k + 1)).status < 300) :
    ((lookupKey (resolveName ω table name cache k).cache name).isSome) ∧
    (∀ m, m ≠ name →
      lookupKey (resolveName ω table name cache k).cache m = lookupKey cache m) ∧
    ((lookupKey cache name).isSome → (resolveName ω table name cache k).evs = []) ∧
    (∀ t m, countFind t m (resolveName ω table name cache k).evs ≤ 1 ∧
      countCreate t m (resolveName ω table name cache k).evs ≤ 1 ∧
      (¬ (t = table ∧ m = name) →
        countFind t m (resolveName ω table name cache k).evs = 0 ∧
        countCreate t m (resolveName ω table name cache k).evs = 0)) := by
  have hfresh : ∀ rid : String,
      (lookupKey (cache ++ [(name, rid)]) name).isSome = true ∧
      (∀ m, m ≠ name → lookupKey (cache ++ [(name, rid)]) m = lookupKey cache m) := by
    intro rid
    constructor
    · cases hl : lookupKey cache name with
      | some w => simp [lookupKey_append_some _ hl]
      | none =>
        rw [lookupKey_append_none _ hl]
        simp [lookupKey]
    · intro m hm
      exact lookupKey_append_single_ne cache name m _ hm
  have hcounts1 : ∀ t m, countFind t m [Ev.findIn table name] ≤ 1 ∧
      countCreate t m [Ev.findIn table name] ≤ 1 ∧
      (¬ (t = table ∧ m = name) →
        countFind t m [Ev.findIn table name] = 0 ∧
        countCreate t m [Ev.findIn table name] = 0) := by
    intro t m
    rw [countFind_single, countCreate_single_find]
    refine ⟨by split <;> simp, by simp, ?_⟩
    intro he
    rw [if_neg (fun hx => he ⟨hx.1.symm, hx.2.symm⟩)]
    exact ⟨rfl, rfl⟩
  have hcounts2 : ∀ t m,
      countFind t m [Ev.findIn table name, Ev.createIn table name] ≤ 1 ∧
      countCreate t m [Ev.findIn table name, Ev.createIn table name] ≤ 1 ∧
      (¬ (t = table ∧ m = name) →
        countFind t m [Ev.findIn table name, Ev.createIn table name] = 0 ∧
        countCreate t m [Ev.findIn table name, Ev.createIn table name] = 0) := by
    intro t m
    rw [countFind_pair, countCreate_pair]
    refine ⟨by split <;> simp, by split <;> simp, ?_⟩
    intro he
    rw [if_neg (fun hx => he ⟨hx.1.symm, hx.2.symm⟩)]
    exact ⟨rfl, rfl⟩
  cases hl : lookupKey cache name with
  | some rid =>
    rw [resolveName_hit ω table name cache k rid hl]
    exact ⟨by simp [hl], fun m _ => rfl, fun _ => rfl, fun t m => by
      simp [countFind, countCreate]⟩
  | none =>
    cases hfi : (ω k).firstId with
    | some rid =>
      by_cases hrid : rid = ""
      · subst hrid
        rw [resolveName_miss_create_empty ω table name cache k hl h1 hfi h2]
        exact ⟨(hfresh _).1, (hfresh _).2, by simp [hl], hcounts2⟩
      · rw [resolveName_miss_found ω table name cache k rid hl h1 hfi hrid]
        exact ⟨(hfresh _).1, (hfresh _).2, by simp [hl], hcounts1⟩
    | none =>
      rw [resolveName_miss_create_none ω table name cache k hl h1 hfi h2]
      exact ⟨(hfresh _).1, (hfresh _).2, by simp [hl], hcounts2⟩

theorem rowStep_shape (ω : Nat → Resp) (cT gT : String)
    (cc gc : List (String × String)) (k : Nat) (row : Row)
    (h3 : ¬ (rowCity row = "" ∨ rowCfg row = "" ∨ rowDate row = "")) :
    (rowStep ω cT gT cc gc k row).cityCache = (resolveName ω cT (rowCity row) cc k).cache ∧
    ∃ ws : List Ev,
      (∀ t n, countFind t n ws = 0 ∧ countCreate t n ws = 0) ∧
      (((rowStep ω cT gT cc gc k row).cfgCache = gc ∧
        (rowStep ω cT gT cc gc k row).evs =
          (resolveName ω cT (rowCity row) cc k).evs ++ ws) ∨
       ((rowStep ω cT gT cc gc k row).cfgCache =
          (resolveName ω gT (rowCfg row) gc (resolveName ω cT (rowCity row) cc k).k).cache ∧
        (rowStep ω cT gT cc gc k row).evs =
          (resolveName ω cT (rowCity row) cc k).evs ++
            (resolveName ω gT (rowCfg row) gc (resolveName ω cT (rowCity row) cc k).k).evs ++
            ws)) := by
  unfold rowStep
  rw [if_neg h3]
  dsimp only
  cases hrc : (resolveName ω cT (rowCity row) cc k).rid with
  | none =>
    refine ⟨rfl, [], fun t n => by simp [countFind, countCreate], Or.inl ⟨rfl, by simp⟩⟩
  | some cid =>
    dsimp only
    cases hrg : (resolveName ω gT (rowCfg row) gc
        (resolveName ω cT (rowCity row) cc k).k).rid with
    | none =>
      refine ⟨rfl, [], fun t n => by simp [countFind, countCreate], Or.inr ⟨rfl, by simp⟩⟩
    | some gid =>
      dsimp only
      by_cases hs : 300 ≤ (ω (resolveName ω gT (rowCfg row) gc
          (resolveName ω cT (rowCity row) cc k).k).k).status
      · rw [if_pos hs]
        exact ⟨rfl, [Ev.searchRent (rowCity row) (rowCfg row) (rowDate row)],
          fun t n => by simp [countFind, countCreate, List.countP_cons],
          Or.inr ⟨rfl, rfl⟩⟩
      · rw [if_neg hs]
        cases hfi : (ω (resolveName ω gT (rowCfg row) gc
            (resolveName ω cT (rowCity row) cc k).k).k).firstId with
        | some rid =>
          dsimp only
          by_cases hw1 : 300 ≤ (ω ((resolveName ω gT (rowCfg row) gc
              (resolveName ω cT (rowCity row) cc k).k).k + 1)).status
          · rw [if_pos hw1]
            by_cases hw2 : 300 ≤ (ω ((resolveName ω gT (rowCfg row) gc
                (resolveName ω cT (rowCity row) cc k).k).k + 2)).status
            · rw [if_pos hw2]
              exact ⟨rfl, _, fun t n => by simp [countFind, countCreate, List.countP_cons],
                Or.inr ⟨rfl, rfl⟩⟩
            · rw [if_neg hw2]
              exact ⟨rfl, _, fun t n => by simp [countFind, countCreate, List.countP_cons],
                Or.inr ⟨rfl, rfl⟩⟩
          · rw [if_neg hw1]
            exact ⟨rfl, _, fun t n => by simp [countFind, countCreate, List.countP_cons],
              Or.inr ⟨rfl, rfl⟩⟩
        | none =>
          dsimp only
          by_cases hw1 : 300 ≤ (ω ((resolveName ω gT (rowCfg row) gc
              (resolveName ω cT (rowCity row) cc k).k).k + 1)).status
          · rw [if_pos hw1]
            by_cases hw2 : 300 ≤ (ω ((resolveName ω gT (rowCfg row) gc
                (resolveName ω cT (rowCity row) cc k).k).k + 2)).status
            · rw [if_pos hw2]
              exact ⟨rfl, _, fun t n => by simp [countFind, countCreate, List.countP_cons],
                Or.inr ⟨rfl, rfl⟩⟩
            · rw [if_neg hw2]
              exact ⟨rfl, _, fun t n => by simp [countFind, countCreate, List.countP_cons],
                Or.inr ⟨rfl, rfl⟩⟩
          · rw [if_neg hw1]
            exact ⟨rfl, _, fun t n => by simp [countFind, countCreate, List.countP_cons],
              Or.inr ⟨rfl, rfl⟩⟩

theorem countFind_nil (t n : String) : countFind t n [] = 0 := rfl

theorem countCreate_nil (t n : String) : countCreate t n [] = 0 := rfl

theorem cacheInv_step (ω : Nat → Resp) (cT gT : String)
    (hok : ∀ i, (ω i).status < 300) (hne : cT ≠ gT) (st : St) (row : Row)
    (hinv : CacheInv cT gT st) : CacheInv cT gT (syncRow ω cT gT st row) := by
  by_cases hsk : skipRow row
  · have hstep := rowStep_skip ω cT gT st.cityCache st.cfgCache st.k row hsk
    intro n
    have h := hinv n
    simp only [syncRow, hstep, applyRow, List.append_nil]
    exact h
  · have h3 : ¬ (rowCity row = "" ∨ rowCfg row = "" ∨ rowDate row = "") := by
      simp only [skipRow, Bool.or_eq_true, decide_eq_true_eq] at hsk
      tauto
    obtain ⟨hcc, ws, hws, hcase⟩ := rowStep_shape ω cT gT st.cityCache st.cfgCache st.k row h3
    have hrcspec := resolveName_spec ω cT (rowCity row) st.cityCache st.k (hok _) (hok _)
    have hrgspec := resolveName_spec ω gT (rowCfg row) st.cfgCache
      (resolveName ω cT (rowCity row) st.cityCache st.k).k (hok _) (hok _)
    intro n
    obtain ⟨hc0, hc1, hc2, hg0, hg1, hg2⟩ := hinv n
    have htrace : (syncRow ω cT gT st row).trace =
        st.trace ++ (rowStep ω cT gT st.cityCache st.cfgCache st.k row).evs := rfl
    have hcityc : (syncRow ω cT gT st row).cityCache =
        (rowStep ω cT gT st.cityCache st.cfgCache st.k row).cityCache := rfl
    have hcfgc : (syncRow ω cT gT st row).cfgCache =
        (rowStep ω cT gT st.cityCache st.cfgCache st.k row).cfgCache := rfl
    have hrcCfg : countFind gT n (resolveName ω cT (rowCity row) st.cityCache st.k).evs = 0 ∧
        countCreate gT n (resolveName ω cT (rowCity row) st.cityCache st.k).evs = 0 :=
      (hrcspec.2.2.2 gT n).2.2 (fun hx => hne hx.1.symm)
    have hrgCity : countFind cT n (resolveName ω gT (rowCfg row) st.cfgCache
          (resolveName ω cT (rowCity row) st.cityCache st.k).k).evs = 0 ∧
        countCreate cT n (resolveName ω gT (rowCfg row) st.cfgCache
          (resolveName ω cT (rowCity row) st.cityCache st.k).k).evs = 0 :=
      (hrgspec.2.2.2 cT n).2.2 (fun hx => hne hx.1)
    -- bounds on the city-resolution events for (cT, n)
    have hcityNoneZ : lookupKey st.cityCache n = none → n ≠ rowCity row →
        countFind cT n (resolveName ω cT (rowCity row) st.cityCache st.k).evs = 0 ∧
        countCreate cT n (resolveName ω cT (rowCity row) st.cityCache st.k).evs = 0 := by
      intro _ hn
      exact (hrcspec.2.2.2 cT n).2.2 (fun hx => hn hx.2)
    have hcityF : countFind cT n st.trace +
        countFind cT n (resolveName ω cT (rowCity row) st.cityCache st.k).evs ≤ 1 := by
      by_cases hn : n = rowCity row
      · subst hn
        cases hold : lookupKey st.cityCache (rowCity row) with
        | none =>
          have z := (hc0 hold).1
          have b := (hrcspec.2.2.2 cT (rowCity row)).1
          omega
        | some v =>
          have hevnil := hrcspec.2.2.1 (by rw [hold]; rfl)
          rw [hevnil, countFind_nil]
          omega
      · have hz := (hrcspec.2.2.2 cT n).2.2 (fun hx => hn hx.2)
        rw [hz.1]
        omega
    have hcityC : countCreate cT n st.trace +
        countCreate cT n (resolveName ω cT (rowCity row) st.cityCache st.k).evs ≤ 1 := by
      by_cases hn : n = rowCity row
      · subst hn
        cases hold : lookupKey st.cityCache (rowCity row) with
        | none =>
          have z := (hc0 hold).2
          have b := (hrcspec.2.2.2 cT (rowCity row)).2.1
          omega
        | some v =>
          have hevnil := hrcspec.2.2.1 (by rw [hold]; rfl)
          rw [hevnil, countCreate_nil]
          omega
      · have hz := (hrcspec.2.2.2 cT n).2.2 (fun hx => hn hx.2)
        rw [hz.2]
        omega
    -- bounds on the config-resolution events for (gT, n)
    have hcfgF : countFind gT n st.trace +
        countFind gT n (resolveName ω gT (rowCfg row) st.cfgCache
          (resolveName ω cT (rowCity row) st.cityCache st.k).k).evs ≤ 1 := by
      by_cases hn : n = rowCfg row
      · subst hn
        cases hold : lookupKey st.cfgCache (rowCfg row) with
        | none =>
          have z := (hg0 hold).1
          have b := (hrgspec.2.2.2 gT (rowCfg row)).1
          omega
        | some v =>
          have hevnil := hrgspec.2.2.1 (by rw [hold]; rfl)
          rw [hevnil, countFind_nil]
          omega
      · have hz := (hrgspec.2.2.2 gT n).2.2 (fun hx => hn hx.2)
        rw [hz.1]
        omega
    have hcfgC : countCreate gT n st.trace +
        countCreate gT n (resolveName ω gT (rowCfg row) st.cfgCache
          (resolveName ω cT (rowCity row) st.cityCache st.k).k).evs ≤ 1 := by
      by_cases hn : n = rowCfg row
      · subst hn
        cases hold : lookupKey st.cfgCache (rowCfg row) with
        | none =>
          have z := (hg0 hold).2
          have b := (hrgspec.2.2.2 gT (rowCfg row)).2.1
          omega
        | some v =>
          have hevnil := hrgspec.2.2.1 (by rw [hold]; rfl)
          rw [hevnil, countCreate_nil]
          omega
      · have hz := (hrgspec.2.2.2 gT n).2.2 (fun hx => hn hx.2)
        rw [hz.2]
        omega
    rcases hcase with ⟨hcfg, hevs⟩ | ⟨hcfg, hevs⟩
    · -- city resolution failed before the config phase: config cache untouched
      rw [htrace, hcityc, hcfgc, hcc, hcfg, hevs]
      refine ⟨?_, ?_, ?_, ?_, ?_, ?_⟩
      · intro hnone
        by_cases hn : n = rowCity row
        · exfalso
          rw [hn] at hnone
          have hsome := hrcspec.1
          rw [hnone] at hsome
          simp at hsome
        · rw [hrcspec.2.1 n hn] at hnone
          obtain ⟨z1, z2⟩ := hc0 hnone
          obtain ⟨y1, y2⟩ := hcityNoneZ hnone hn
          rw [countFind_append, countFind_append, countCreate_append, countCreate_append,
            z1, z2, y1, y2, (hws cT n).1, (hws cT n).2]
          exact ⟨rfl, rfl⟩
      · rw [countFind_append, countFind_append, (hws cT n).1]
        omega
      · rw [countCreate_append, countCreate_append, (hws cT n).2]
        omega
      · intro hnone
        obtain ⟨z1, z2⟩ := hg0 hnone
        rw [countFind_append, countFind_append, countCreate_append, countCreate_append,
          z1, z2, hrcCfg.1, hrcCfg.2, (hws gT n).1, (hws gT n).2]
        exact ⟨rfl, rfl⟩
      · rw [countFind_append, countFind_append, (hws gT n).1, hrcCfg.1]
        omega
      · rw [countCreate_append, countCreate_append, (hws gT n).2, hrcCfg.2]
        omega
    · -- both resolutions ran
      rw [htrace, hcityc, hcfgc, hcc, hcfg, hevs]
      refine ⟨?_, ?_, ?_, ?_, ?_, ?_⟩
      · intro hnone
        by_cases hn : n = rowCity row
        · exfalso
          rw [hn] at hnone
          have hsome := hrcspec.1
          rw [hnone] at hsome
          simp at hsome
        · rw [hrcspec.2.1 n hn] at hnone
          obtain ⟨z1, z2⟩ := hc0 hnone
          obtain ⟨y1, y2⟩ := hcityNoneZ hnone hn
          rw [countFind_append, countFind_append, countFind_append,
            countCreate_append, countCreate_append, countCreate_append,
            z1, z2, y1, y2, hrgCity.1, hrgCity.2, (hws cT n).1, (hws cT n).2]
          exact ⟨rfl, rfl⟩
      · rw [countFind_append, countFind_append, countFind_append, (hws cT n).1, hrgCity.1]
        omega
      · rw [countCreate_append, countCreate_append, countCreate_append,
          (hws cT n).2, hrgCity.2]
        omega
      · intro hnone
        by_cases hn : n = rowCfg row
        · exfalso
          rw [hn] at hnone
          have hsome := hrgspec.1
          rw [hnone] at hsome
          simp at hsome
        · rw [hrgspec.2.1 n hn] at hnone
          obtain ⟨z1, z2⟩ := hg0 hnone
          obtain ⟨y1, y2⟩ := (hrgspec.2.2.2 gT n).2.2 (fun hx => hn hx.2)
          rw [countFind_append, countFind_append, countFind_append,
            countCreate_append, countCreate_append, countCreate_append,
            z1, z2, y1, y2, hrcCfg.1, hrcCfg.2, (hws gT n).1, (hws gT n).2]
          exact ⟨rfl, rfl⟩
      · rw [countFind_append, countFind_append, countFind_append, (hws gT n).1, hrcCfg.1]
        omega
      · rw [countCreate_append, countCreate_append, countCreate_append,
          (hws gT n).2, hrcCfg.2]
        omega

theorem cacheInv_syncFrom (ω : Nat → Resp) (cT gT : String)
    (hok : ∀ i, (ω i).status < 300) (hne : cT ≠ gT) :
    ∀ (rows : List Row) (st : St), CacheInv cT gT st →
      CacheInv cT gT (syncFrom ω cT gT st rows) := by
  intro rows
  induction rows with
  | nil => intro st h; exact h
  | cons r rs ih => intro st h; exact ih _ (cacheInv_step ω cT gT hok hne st r h)

theorem cacheInv_start (cT gT : String) : CacheInv cT gT St.start := by
  intro n
  exact ⟨fun _ => ⟨rfl, rfl⟩, Nat.zero_le 1, Nat.zero_le 1,
    fun _ => ⟨rfl, rfl⟩, Nat.zero_le 1, Nat.zero_le 1⟩

/-- Claim C3, amended: provided the cities and configs tables are
distinct and every remote call of the run succeeds, each (table, name)
pair sees at most one lookup request and at most one create request over
the whole run — after the first resolution of a name its id is served
from the per-run cache and no further remote queries are issued for it. -/
theorem c3_cache_amended (ω : Nat → Resp) (cT gT : String) (rows : List Row)
    (hok : ∀ i, (ω i).status < 300) (hne : cT ≠ gT) :
    ∀ n, countFind cT n (sync ω cT gT rows).trace ≤ 1 ∧
      countCreate cT n (sync ω cT gT rows).trace ≤ 1 ∧
      countFind gT n (sync ω cT gT rows).trace ≤ 1 ∧
      countCreate gT n (sync ω cT gT rows).trace ≤ 1 := by
  have hall := cacheInv_syncFrom ω cT gT hok hne rows St.start (cacheInv_start cT gT)
  intro n
  obtain ⟨h1, h2, h3, h4, h5, h6⟩ := hall n
  exact ⟨h2, h3, h5, h6⟩

/-- Witness for C3 (amended): two identical rows under an all-success
oracle resolve the city name remotely at most once. -/
theorem c3_witness :
    countFind "Cities" "Panama City" (sync allOkNotFound "Cities" "Configs" rowsTwice).trace ≤ 1 ∧
    countCreate "Cities" "Panama City"
      (sync allOkNotFound "Cities" "Configs" rowsTwice).trace ≤ 1 := by
  have h := c3_cache_amended allOkNotFound "Cities" "Configs" rowsTwice
    (fun _ => by norm_num [allOkNotFound]) (by decide) "Panama City"
  exact ⟨h.1, h.2.1⟩

/-- Counterexample to C3 as stated: when the first lookup of a name fails
with a server error, the next row retries it (two lookups for one
(table, name)); and when the cities and configs tables are configured to
be the same table, a row whose city and configuration carry the same text
issues two lookups for that (table, name) pair, because the caches are
per-role, not per-(table, name). -/
theorem c3_cex :
    countFind "Cities" "Panama City" (sync failFirst "Cities" "Configs" rowsTwice).trace = 2 ∧
    countFind "T" "X" (sync allOkNotFound "T" "T" [sameNameRow]).trace = 2 := by
  decide

end PanamaSync
